import Mathlib

/-!
Shallow embedding of the SVG device of `src/src/svg/SkSVGDevice.cpp`.

The device renders draw calls into a stream of XML writer calls.  We model the
consumed `SkXMLWriter` interface as a trace of events (`startElement`,
`endElement`, attribute writes, text), machine scalars (`SkScalar`) as
rationals, colors as their four 8-bit channels, and the external collaborators
(path geometry, image codecs, clip stack queries, typeface queries) as data
carried by the input structures, exactly at the granularity at which
`SkSVGDevice.cpp` consumes them.  Decimal formatting of scalars (`printf %g`,
`appendScalar`) is a collaborator of the XML/string layer; it is modelled by
the canonical rendering of the rational value.
-/

/-- `SkScalar` is modelled as a rational number. -/
abbrev SkScalar := ℚ

/-- Rendering of a scalar into a decimal string (models `%g` / `appendScalar`).
The claims only depend on this map being a fixed function of the value. -/
def fmtScalar (q : SkScalar) : String := toString q

/-- A 32-bit ARGB color, split into its four 8-bit channels
(`SkColorGetA/R/G/B`). -/
structure SkColor where
  a : Nat
  r : Nat
  g : Nat
  b : Nat
deriving DecidableEq, Repr

/-- `svg_color` from SkSVGDevice.cpp: `"rgb(r,g,b)"`. -/
def svg_color (c : SkColor) : String :=
  "rgb(" ++ toString c.r ++ "," ++ toString c.g ++ "," ++ toString c.b ++ ")"

/-- `svg_opacity`: alpha divided by `SK_AlphaOPAQUE` (255). -/
def svg_opacity (c : SkColor) : SkScalar := (c.a : ℚ) / 255

/-- A 3x3 `SkMatrix`, row major:
`scaleX skewX transX / skewY scaleY transY / persp0 persp1 persp2`. -/
structure SkMatrix where
  scaleX : SkScalar
  skewX  : SkScalar
  transX : SkScalar
  skewY  : SkScalar
  scaleY : SkScalar
  transY : SkScalar
  persp0 : SkScalar
  persp1 : SkScalar
  persp2 : SkScalar
deriving DecidableEq, Repr

namespace SkMatrix

def identity : SkMatrix := ⟨1, 0, 0, 0, 1, 0, 0, 0, 1⟩

def isIdentity (m : SkMatrix) : Bool := m = identity

/-- The classification buckets used by `svg_transform`'s switch over
`SkMatrix::getType()`. -/
inductive TypeClass where
  | identityC
  | translateC
  | scaleC
  | affineC
  | perspectiveC
deriving DecidableEq, Repr

/-- Modelled from the spec: `SkMatrix::getType()` (the matrix type bitmask) is
not part of the excerpt; the spec describes matrices as "classified into
identity / translate / scale / general-affine / perspective".  A matrix with a
perspective component classifies as perspective; otherwise a pure translation
(only the translation entries differ from identity, and do so) classifies as
translate; a pure scale as scale; everything else non-identity as
general-affine. -/
def getTypeClass (m : SkMatrix) : TypeClass :=
  if m.persp0 ≠ 0 ∨ m.persp1 ≠ 0 ∨ m.persp2 ≠ 1 then .perspectiveC
  else if m.skewX = 0 ∧ m.skewY = 0 ∧ m.scaleX = 1 ∧ m.scaleY = 1 then
    if m.transX ≠ 0 ∨ m.transY ≠ 0 then .translateC else .identityC
  else if m.skewX = 0 ∧ m.skewY = 0 ∧ m.transX = 0 ∧ m.transY = 0 then .scaleC
  else .affineC

/-- `SkMatrix::preTranslate(dx, dy)`: post-multiplication by a translation. -/
def preTranslate (m : SkMatrix) (dx dy : SkScalar) : SkMatrix :=
  { m with
    transX := m.scaleX * dx + m.skewX * dy + m.transX
    transY := m.skewY * dx + m.scaleY * dy + m.transY
    persp2 := m.persp0 * dx + m.persp1 * dy + m.persp2 }

/-- Full 3x3 matrix product `a * b` (used to model `postConcat`). -/
def mul (a b : SkMatrix) : SkMatrix where
  scaleX := a.scaleX * b.scaleX + a.skewX * b.skewY + a.transX * b.persp0
  skewX  := a.scaleX * b.skewX + a.skewX * b.scaleY + a.transX * b.persp1
  transX := a.scaleX * b.transX + a.skewX * b.transY + a.transX * b.persp2
  skewY  := a.skewY * b.scaleX + a.scaleY * b.skewY + a.transY * b.persp0
  scaleY := a.skewY * b.skewX + a.scaleY * b.scaleY + a.transY * b.persp1
  transY := a.skewY * b.transX + a.scaleY * b.transY + a.transY * b.persp2
  persp0 := a.persp0 * b.scaleX + a.persp1 * b.skewY + a.persp2 * b.persp0
  persp1 := a.persp0 * b.skewX + a.persp1 * b.scaleY + a.persp2 * b.persp1
  persp2 := a.persp0 * b.transX + a.persp1 * b.transY + a.persp2 * b.persp2

end SkMatrix

/-- `svg_transform` from SkSVGDevice.cpp: renders a non-identity matrix as an
SVG transform string, switching on the matrix classification.  The perspective
case falls through with an empty string (TODO in the source). -/
def svg_transform (t : SkMatrix) : String :=
  match t.getTypeClass with
  | .perspectiveC => ""
  | .translateC =>
      "translate(" ++ fmtScalar t.transX ++ " " ++ fmtScalar t.transY ++ ")"
  | .scaleC =>
      "scale(" ++ fmtScalar t.scaleX ++ " " ++ fmtScalar t.scaleY ++ ")"
  | _ =>
      "matrix(" ++ fmtScalar t.scaleX ++ " " ++ fmtScalar t.skewY ++ " " ++
        fmtScalar t.skewX ++ " " ++ fmtScalar t.scaleY ++ " " ++
        fmtScalar t.transX ++ " " ++ fmtScalar t.transY ++ ")"

example : svg_transform ⟨1, 0, 3, 0, 1, 4, 0, 0, 1⟩ = "translate(3 4)" := by decide
example : svg_transform ⟨2, 0, 0, 0, 5, 0, 0, 0, 1⟩ = "scale(2 5)" := by decide
example : svg_transform ⟨1, 0, 0, 0, 1, 0, 1, 0, 1⟩ = "" := by decide
example : svg_transform ⟨1, 2, 3, 4, 5, 6, 0, 0, 1⟩ =
    "matrix(1 4 2 5 3 6)" := by decide

/-! ## Resource bucket (`SkSVGDevice::ResourceBucket`) -/

/-- `printf "%d"` applied to a `uint32_t` value: the argument is reinterpreted
as a 32-bit signed integer, so values at or above `2^31` render as their
two's-complement negatives. -/
def fmtS32 (n : Nat) : String :=
  if n < 2 ^ 31 then toString n else toString ((n : Int) - 2 ^ 32)

/-- Per-document resource counters.  The C++ counters are `uint32_t`: they
are modelled as `Nat` post-incremented modulo `2^32`, and the id string uses
the `%d` (signed) rendering of the 32-bit value.  `init` starts all counters
at 0 and every operation keeps them below `2^32`. -/
structure ResourceBucket where
  fGradientCount    : Nat
  fClipCount        : Nat
  fPathCount        : Nat
  fImageCount       : Nat
  fPatternCount     : Nat
  fColorFilterCount : Nat
deriving DecidableEq, Repr

namespace ResourceBucket

def init : ResourceBucket := ⟨0, 0, 0, 0, 0, 0⟩

def addLinearGradient (b : ResourceBucket) : String × ResourceBucket :=
  ("gradient_" ++ fmtS32 b.fGradientCount,
   { b with fGradientCount := (b.fGradientCount + 1) % 2 ^ 32 })

def addClip (b : ResourceBucket) : String × ResourceBucket :=
  ("clip_" ++ fmtS32 b.fClipCount,
   { b with fClipCount := (b.fClipCount + 1) % 2 ^ 32 })

def addPath (b : ResourceBucket) : String × ResourceBucket :=
  ("path_" ++ fmtS32 b.fPathCount,
   { b with fPathCount := (b.fPathCount + 1) % 2 ^ 32 })

def addImage (b : ResourceBucket) : String × ResourceBucket :=
  ("img_" ++ fmtS32 b.fImageCount,
   { b with fImageCount := (b.fImageCount + 1) % 2 ^ 32 })

def addColorFilter (b : ResourceBucket) : String × ResourceBucket :=
  ("cfilter_" ++ fmtS32 b.fColorFilterCount,
   { b with fColorFilterCount := (b.fColorFilterCount + 1) % 2 ^ 32 })

def addPattern (b : ResourceBucket) : String × ResourceBucket :=
  ("pattern_" ++ fmtS32 b.fPatternCount,
   { b with fPatternCount := (b.fPatternCount + 1) % 2 ^ 32 })

end ResourceBucket

/-- The six allocation categories served by the bucket. -/
inductive ResCat where
  | gradient | clip | path | image | pattern | colorFilter
deriving DecidableEq, Repr

/-- The id stem of each category ("gradient", "clip", "path", "img",
"pattern", "cfilter"). -/
def catStem : ResCat → String
  | .gradient => "gradient"
  | .clip => "clip"
  | .path => "path"
  | .image => "img"
  | .pattern => "pattern"
  | .colorFilter => "cfilter"

/-- Dispatch one allocation request to the bucket. -/
def ResourceBucket.alloc (b : ResourceBucket) : ResCat → String × ResourceBucket
  | .gradient => b.addLinearGradient
  | .clip => b.addClip
  | .path => b.addPath
  | .image => b.addImage
  | .pattern => b.addPattern
  | .colorFilter => b.addColorFilter

/-- The counter the bucket keeps for a category. -/
def ResourceBucket.catCount (b : ResourceBucket) : ResCat → Nat
  | .gradient => b.fGradientCount
  | .clip => b.fClipCount
  | .path => b.fPathCount
  | .image => b.fImageCount
  | .pattern => b.fPatternCount
  | .colorFilter => b.fColorFilterCount

/-- Run a sequence of allocation requests, returning the issued id strings. -/
def runAlloc (b : ResourceBucket) : List ResCat → List String
  | [] => []
  | c :: cs =>
      let (id, b') := b.alloc c
      id :: runAlloc b' cs

/-! ## XML writer trace (`SkXMLWriter` collaborator) -/

/-- One call into the consumed `SkXMLWriter` interface.  `attrS`, `attrInt` and
`attrScalar` are the string / `addS32Attribute` / `addScalarAttribute`
overloads. -/
inductive Event where
  | start (name : String)
  | endElem
  | attrS (name val : String)
  | attrInt (name : String) (val : Int)
  | attrScalar (name : String) (val : SkScalar)
  | text (s : String)
deriving DecidableEq, Repr

abbrev Trace := List Event

/-- The full emission of one element scope: opening tag, its attributes and
children, closing tag.  `AutoElement` guarantees this bracketing by RAII (the
destructor emits `endElement`). -/
def elemT (name : String) (middle : Trace) : Trace :=
  Event.start name :: middle ++ [Event.endElem]

/-- Events that neither open nor close an element. -/
def Event.isFlat : Event → Bool
  | .start _ => false
  | .endElem => false
  | _ => true

/-! ## Text builder (`SVGTextBuilder`) -/

/-- `SkPoint`. -/
structure SkPoint where
  x : SkScalar
  y : SkScalar
deriving DecidableEq, Repr

/-- The mutable state of `SVGTextBuilder`: the accumulated text (as a char
list), the two position strings, the whitespace flag, and the position cursor
(the not-yet-consumed scalars of `fPos`). -/
structure TBState where
  fText : List Char
  fPosX : String
  fPosY : String
  fLastCharWasWhitespace : Bool
  fPos : List SkScalar
deriving Repr

/-- `SVGTextBuilder::advancePos`: on a non-discarded character with
`scalarsPerPos > 0`, append `"%.8g, "` of offset+pos to the position strings;
always advance the input cursor by `scalarsPerPos`. -/
def advancePos (offset : SkPoint) (scalarsPerPos : Nat) (discard : Bool)
    (st : TBState) : TBState :=
  let st :=
    if ¬discard ∧ scalarsPerPos > 0 then
      let st := { st with
        fPosX := st.fPosX ++ fmtScalar (offset.x + st.fPos.getD 0 0) ++ ", " }
      if scalarsPerPos > 1 then
        { st with
          fPosY := st.fPosY ++ fmtScalar (offset.y + st.fPos.getD 1 0) ++ ", " }
      else st
    else st
  { st with fPos := st.fPos.drop scalarsPerPos }

/-- `SVGTextBuilder::appendUnichar`, over the character's code point.
Space (32) and tab (9) collapse against the whitespace flag; NUL (0) is
discarded but preserves the flag; the five XML-special characters are replaced
by entity references; everything else is appended verbatim. -/
def appendUnichar (offset : SkPoint) (scalarsPerPos : Nat) (st : TBState)
    (c : Nat) : TBState :=
  let pushStr (s : String) (st : TBState) : TBState :=
    { st with fText := st.fText ++ s.data }
  let step :
      -- (state after the text-emission switch, discardPos, isWhitespace)
      TBState × Bool × Bool :=
    if c = 32 ∨ c = 9 then
      if st.fLastCharWasWhitespace then (st, true, true)
      else ({ st with fText := st.fText ++ [Char.ofNat c] }, false, true)
    else if c = 0 then (st, true, st.fLastCharWasWhitespace)
    else if c = 38 then (pushStr "&amp;" st, false, false)
    else if c = 34 then (pushStr "&quot;" st, false, false)
    else if c = 39 then (pushStr "&apos;" st, false, false)
    else if c = 60 then (pushStr "&lt;" st, false, false)
    else if c = 62 then (pushStr "&gt;" st, false, false)
    else ({ st with fText := st.fText ++ [Char.ofNat c] }, false, false)
  let (st1, discardPos, isWhitespace) := step
  let st2 := advancePos offset scalarsPerPos discardPos st1
  { st2 with fLastCharWasWhitespace := isWhitespace }

/-- The state of a fresh builder: empty outputs, whitespace flag `true`
("start off in whitespace mode to strip all leading space"), cursor at the
head of the position array. -/
def tbInit (pos : List SkScalar) : TBState :=
  { fText := [], fPosX := "", fPosY := "", fLastCharWasWhitespace := true,
    fPos := pos }

/-- The constructor loop: feed every decoded unichar through
`appendUnichar`. -/
def tbRun (offset : SkPoint) (scalarsPerPos : Nat) (st : TBState)
    (cs : List Nat) : TBState :=
  cs.foldl (appendUnichar offset scalarsPerPos) st

/-- The whole `SVGTextBuilder` over the decoded unichars of the input text
(the UTF-8/16/32 decode / glyph-to-unichar mapping is the consumed
collaborator): run the per-character loop, then fix up the position strings
for `scalarsPerPos < 2` (fixed Y) and `< 1` (fixed X). -/
def svgTextBuilder (cs : List Nat) (offset : SkPoint) (scalarsPerPos : Nat)
    (pos : List SkScalar) : TBState :=
  let st := tbRun offset scalarsPerPos (tbInit pos) cs
  let st := if scalarsPerPos < 2 then
      { st with fPosY := st.fPosY ++ fmtScalar offset.y } else st
  if scalarsPerPos < 1 then
    { st with fPosX := st.fPosX ++ fmtScalar offset.x } else st

example :
    (svgTextBuilder ((("a  b" : String).data.map Char.toNat)) ⟨0, 0⟩ 0 []).fText
      = ("a b" : String).data := by decide
example :
    (svgTextBuilder (((" a " : String).data.map Char.toNat)) ⟨0, 0⟩ 0 []).fText
      = ("a " : String).data := by decide

/-! ## Paths, rects, clip stack -/

/-- `SkRect`: `fLeft`, `fTop`, `fRight`, `fBottom`. -/
structure SkRect where
  l : SkScalar
  t : SkScalar
  r : SkScalar
  b : SkScalar
deriving DecidableEq, Repr

namespace SkRect

def mkEmpty : SkRect := ⟨0, 0, 0, 0⟩

def x (rc : SkRect) : SkScalar := rc.l
def y (rc : SkRect) : SkScalar := rc.t
def width (rc : SkRect) : SkScalar := rc.r - rc.l
def height (rc : SkRect) : SkScalar := rc.b - rc.t
def centerX (rc : SkRect) : SkScalar := (rc.l + rc.r) / 2
def centerY (rc : SkRect) : SkScalar := (rc.t + rc.b) / 2

/-- `SkRect::isEmpty`: not a strictly positive area rect. -/
def isEmpty (rc : SkRect) : Bool := ¬(rc.l < rc.r ∧ rc.t < rc.b)

def mkWH (w h : SkScalar) : SkRect := ⟨0, 0, w, h⟩

end SkRect

/-- One verb of a path's verb stream (the subset the device constructs:
`moveTo`, `lineTo`, `close`). -/
inductive PathVerb where
  | move (p : SkPoint)
  | line (p : SkPoint)
  | close
deriving DecidableEq, Repr

/-- `SkPath::FillType`. -/
inductive FillType where
  | winding | evenOdd | inverseWinding | inverseEvenOdd
deriving DecidableEq, Repr

/-- An `SkPath` at the granularity the device consumes it: its verb stream,
its fill type, and the result of the consumed rect-detection query
`isRect(&rect)` (path geometry algorithms are an external collaborator). -/
structure SkPath where
  verbs : List PathVerb
  fillType : FillType
  isRectRes : Option SkRect
deriving DecidableEq, Repr

/-- `SkPath::isEmpty`: no verbs. -/
def SkPath.isEmpty (p : SkPath) : Bool := p.verbs.isEmpty

/-- Modelled collaborator `SkParsePath::ToSVGString`: "M x y", "L x y", "Z"
per verb, space separated. -/
def toSVGString (vs : List PathVerb) : String :=
  String.intercalate " " (vs.map fun v =>
    match v with
    | .move p => "M" ++ fmtScalar p.x ++ " " ++ fmtScalar p.y
    | .line p => "L" ++ fmtScalar p.x ++ " " ++ fmtScalar p.y
    | .close => "Z")

/-- The accumulated clip (`SkClipStack`) at the granularity the device
consumes it: the wide-open query, the `asPath` conversion (an external
collaborator, carried as data), and the clipped-bounds computation used by
`drawAnnot` (also a collaborator, carried as a function). -/
structure SkClipStack where
  isWideOpen : Bool
  asPath : SkPath
  clippedBounds : SkRect → SkMatrix → SkRect

/-- `SkSVGDevice::MxCp`: the matrix + clip context of one draw call. -/
structure MxCp where
  fMatrix : SkMatrix
  fClipStack : SkClipStack

/-! ## Shaders, color filters, images, paints -/

/-- `SkShader::TileMode`. -/
inductive TileMode where
  | clamp | repeatT | mirror | decal
deriving DecidableEq, Repr

/-- An `SkImage` at the granularity the device consumes it: pixel bounds and
the codec collaborator results (`encodeToData()`, and the PNG re-encode
`encodeToData(kPNG, 100)` used when the cached bytes are neither PNG nor
JPEG). -/
structure SkImage where
  width : Int
  height : Int
  encodeToData : Option (List Nat)
  encodePng100 : List Nat
deriving DecidableEq, Repr

/-- Result of a successful `SkShader::isAImage(&localMatrix, xy)` query. -/
structure ImageShaderInfo where
  image : SkImage
  tileX : TileMode
  tileY : TileMode
deriving DecidableEq, Repr

/-- Result of a linear `SkShader::asAGradient` query: the two control points
and the color/offset stops. -/
structure GradientInfo where
  p0 : SkPoint
  p1 : SkPoint
  stops : List (SkColor × SkScalar)
deriving DecidableEq, Repr

/-- The switch-based shader capability probes (`asAGradient`, `isAImage`) as
a closed variant: a linear gradient, some other gradient type (radial/sweep),
an image shader, or anything else. -/
inductive ShaderKind where
  | linearGradient (info : GradientInfo)
  | otherGradient
  | image (info : ImageShaderInfo)
  | other
deriving DecidableEq, Repr

structure SkShader where
  kind : ShaderKind
  localMatrix : SkMatrix
deriving DecidableEq, Repr

/-- `SkShader::isAImage()` (the boolean form). -/
def SkShader.isAImageInfo (s : SkShader) : Option ImageShaderInfo :=
  match s.kind with
  | .image i => some i
  | _ => none

/-- `SkBlendMode` (the modes the translator distinguishes). -/
inductive SkBlendMode where
  | clear | src | dst | srcOver | srcIn | srcOut | other
deriving DecidableEq, Repr

/-- An `SkColorFilter` at the granularity the device consumes it: the
`asColorMode(&color, &mode)` query result. -/
structure SkColorFilter where
  asColorMode : Option (SkColor × SkBlendMode)
deriving DecidableEq, Repr

/-- `SkPaint::Style`. -/
inductive PaintStyle where
  | fill | stroke | strokeAndFill
deriving DecidableEq, Repr

/-- `SkPaint::Cap`. -/
inductive PaintCap where
  | butt | round | square
deriving DecidableEq, Repr

/-- `SkPaint::Join`. -/
inductive PaintJoin where
  | miter | round | bevel
deriving DecidableEq, Repr

/-- `SkPaint::Align`. -/
inductive PaintAlign where
  | left | center | right
deriving DecidableEq, Repr

/-- `svg_cap`: `nullptr` for the default butt cap. -/
def svg_cap : PaintCap → Option String
  | .butt => none
  | .round => some "round"
  | .square => some "square"

/-- `svg_join`: `nullptr` for the default miter join. -/
def svg_join : PaintJoin → Option String
  | .miter => none
  | .round => some "round"
  | .bevel => some "bevel"

/-- `svg_text_align`: `nullptr` for the default left alignment. -/
def svg_text_align : PaintAlign → Option String
  | .left => none
  | .center => some "middle"
  | .right => some "end"

/-- `SkFontStyle::Slant`. -/
inductive FontSlant where
  | upright | italic | oblique
deriving DecidableEq, Repr

/-- An `SkTypeface` at the granularity `addTextAttributes` consumes it:
font style triple and the localized family-name enumeration. -/
structure SkTypeface where
  slant : FontSlant
  weight : Int
  fontWidth : Int
  familyNames : List String
deriving DecidableEq, Repr

/-- The paint snapshot (read-only view of `SkPaint`). -/
structure SkPaint where
  style : PaintStyle
  color : SkColor
  strokeWidth : SkScalar
  strokeCap : PaintCap
  strokeJoin : PaintJoin
  strokeMiter : SkScalar
  shader : Option SkShader
  colorFilter : Option SkColorFilter
  textSize : SkScalar
  textAlign : PaintAlign
  typeface : SkTypeface
deriving DecidableEq, Repr

/-- `RequiresViewportReset`: the paint's shader is an image shader with at
least one axis in repeat mode. -/
def RequiresViewportReset (paint : SkPaint) : Bool :=
  match paint.shader with
  | none => false
  | some sh =>
    match sh.isAImageInfo with
    | none => false
    | some info => info.tileX = .repeatT ∨ info.tileY = .repeatT

/-! ## Image embedding (`AsDataUri` and the codec collaborators) -/

/-- Modelled collaborator `SkBase64::Encode` (RFC 4648 base64 of a byte
list). -/
def base64Encode (bytes : List Nat) : String :=
  let table := "ABCDEFGHIJKLMNOPQRSTUVWXYZabcdefghijklmnopqrstuvwxyz0123456789+/".data
  let ch (n : Nat) : Char := table.getD n (Char.ofNat 65)
  let rec go : List Nat → List Char
    | [] => []
    | [b0] =>
        [ch (b0 / 4), ch (b0 % 4 * 16), Char.ofNat 61, Char.ofNat 61]
    | [b0, b1] =>
        [ch (b0 / 4), ch (b0 % 4 * 16 + b1 / 16), ch (b1 % 16 * 4),
         Char.ofNat 61]
    | b0 :: b1 :: b2 :: rest =>
        ch (b0 / 4) :: ch (b0 % 4 * 16 + b1 / 16) ::
          ch (b1 % 16 * 4 + b2 / 64) :: ch (b2 % 64) :: go rest
  ⟨go bytes⟩

/-- Modelled collaborator `SkJpegCodec::IsJpeg`: the three JPEG magic
bytes. -/
def isJpeg (bytes : List Nat) : Bool :=
  bytes.take 3 = [0xFF, 0xD8, 0xFF]

/-- Modelled collaborator `SkPngCodec::IsPng`: the eight PNG signature
bytes. -/
def isPng (bytes : List Nat) : Bool :=
  bytes.take 8 = [137, 80, 78, 71, 13, 10, 26, 10]

/-- `AsDataUri` from SkSVGDevice.cpp: fails exactly when `encodeToData()`
yields no bytes; otherwise sniffs the encoding and produces
`data:image/{jpeg|png};base64,` followed by the base64 payload (re-encoding
to PNG when the cached bytes are neither JPEG nor PNG).  The C-string
null-terminator shuffling of the byte buffer is modelled as plain string
concatenation. -/
def AsDataUri (image : SkImage) : Option String :=
  match image.encodeToData with
  | none => none
  | some imageData =>
      if isJpeg imageData then
        some ("data:image/jpeg;base64," ++ base64Encode imageData)
      else
        let imageData := if isPng imageData then imageData
                         else image.encodePng100
        some ("data:image/png;base64," ++ base64Encode imageData)

/-- An `SkBitmap` at the granularity `drawBitmapCommon` consumes it: pixel
bounds and the `encode` collaborator result (`SkEncodeImage(kPNG, 80)`). -/
structure SkBitmap where
  width : Int
  height : Int
  encodePng80 : Option (List Nat)
deriving DecidableEq, Repr

/-! ## Paint resolution and scoped element emission (`AutoElement`) -/

/-- The per-draw-call `Resources` bundle: paint server, clip and color-filter
references.  `fPaintServer` is initialized to the literal color string. -/
structure Resources where
  fPaintServer : String
  fClip : String
  fColorFilter : String
deriving DecidableEq, Repr

def Resources.ofPaint (paint : SkPaint) : Resources :=
  ⟨svg_color paint.color, "", ""⟩

/-- `AutoElement::addRectAttributes`: `x`/`y` only when nonzero, `width` and
`height` always. -/
def addRectAttributes (rc : SkRect) : Trace :=
  (if rc.x ≠ 0 then [Event.attrScalar "x" rc.x] else []) ++
  (if rc.y ≠ 0 then [Event.attrScalar "y" rc.y] else []) ++
  [Event.attrScalar "width" rc.width, Event.attrScalar "height" rc.height]

/-- `AutoElement::addPathAttributes`: the `d` attribute from the SVG
path-string collaborator. -/
def addPathAttributes (p : SkPath) : Trace :=
  [Event.attrS "d" (toSVGString p.verbs)]

/-- `AutoElement::addClipResources`: convert the clip to a path, allocate a
clip id, emit a `<clipPath>` whose child is a `<rect>` when the path is empty
or exactly rectangular and a `<path>` otherwise, both carrying a `clip-rule`
attribute matching the path's fill type; point the clip resource at the id. -/
def addClipResources (mc : MxCp) (res : Resources) (b : ResourceBucket) :
    Resources × Trace × ResourceBucket :=
  let clipPath := mc.fClipStack.asPath
  let (clipID, b') := b.addClip
  let clipRule := if clipPath.fillType = .evenOdd then "evenodd" else "nonzero"
  let clipRect := if clipPath.isEmpty then SkRect.mkEmpty
                  else clipPath.isRectRes.getD SkRect.mkEmpty
  let child :=
    if clipPath.isEmpty || clipPath.isRectRes.isSome then
      elemT "rect" (addRectAttributes clipRect ++
        [Event.attrS "clip-rule" clipRule])
    else
      elemT "path" (addPathAttributes clipPath ++
        [Event.attrS "clip-rule" clipRule])
  let trace := elemT "clipPath" (Event.attrS "id" clipID :: child)
  ({ res with fClip := "url(#" ++ clipID ++ ")" }, trace, b')

/-- `AutoElement::addLinearGradientDef`: the `<linearGradient>` definition
with `userSpaceOnUse` units, the two control points, an optional
`gradientTransform`, and one `<stop>` per color/offset pair (stop-opacity
omitted when fully opaque). -/
def addLinearGradientDef (info : GradientInfo) (shader : SkShader)
    (b : ResourceBucket) : String × Trace × ResourceBucket :=
  let (id, b') := b.addLinearGradient
  let trace := elemT "linearGradient"
    ([Event.attrS "id" id,
      Event.attrS "gradientUnits" "userSpaceOnUse",
      Event.attrScalar "x1" info.p0.x, Event.attrScalar "y1" info.p0.y,
      Event.attrScalar "x2" info.p1.x, Event.attrScalar "y2" info.p1.y] ++
     (if ¬shader.localMatrix.isIdentity then
        [Event.attrS "gradientTransform" (svg_transform shader.localMatrix)]
      else []) ++
     (info.stops.flatMap fun (color, offset) =>
        elemT "stop"
          ([Event.attrScalar "offset" offset,
            Event.attrS "stop-color" (svg_color color)] ++
           (if color.a ≠ 255 then
              [Event.attrScalar "stop-opacity" (svg_opacity color)]
            else []))))
  (id, trace, b')

/-- `AutoElement::addGradientShaderResources`: only a linear gradient emits a
definition and redirects the paint server; other gradient types return
early. -/
def addGradientShaderResources (shader : SkShader) (res : Resources)
    (b : ResourceBucket) : Resources × Trace × ResourceBucket :=
  match shader.kind with
  | .linearGradient info =>
      let (id, trace, b') := addLinearGradientDef info shader b
      ({ res with fPaintServer := "url(#" ++ id ++ ")" }, trace, b')
  | _ => (res, [], b)

/-- `AutoElement::addImageShaderResources`: bail out with no emission when the
data URI cannot be produced; otherwise emit a `<pattern>` (dimensions: image
pixel size on repeat axes, "100%" otherwise) containing an embedded
`<image>`, and point the paint server at the pattern. -/
def addImageShaderResources (info : ImageShaderInfo) (res : Resources)
    (b : ResourceBucket) : Resources × Trace × ResourceBucket :=
  match AsDataUri info.image with
  | none => (res, [], b)
  | some dataUri =>
      let dimFor (tm : TileMode) (dim : Int) : String :=
        match tm with
        | .repeatT => fmtScalar (dim : ℚ)
        | _ => "100%"
      let patternDimX := dimFor info.tileX info.image.width
      let patternDimY := dimFor info.tileY info.image.height
      let (patternID, b1) := b.addPattern
      let (imageID, b2) := b1.addImage
      let trace := elemT "pattern"
        ([Event.attrS "id" patternID,
          Event.attrS "patternUnits" "userSpaceOnUse",
          Event.attrS "patternContentUnits" "userSpaceOnUse",
          Event.attrS "width" patternDimX,
          Event.attrS "height" patternDimY,
          Event.attrInt "x" 0, Event.attrInt "y" 0] ++
         elemT "image"
           [Event.attrS "id" imageID,
            Event.attrInt "x" 0, Event.attrInt "y" 0,
            Event.attrInt "width" info.image.width,
            Event.attrInt "height" info.image.height,
            Event.attrS "xlink:href" dataUri])
      ({ res with fPaintServer := "url(#" ++ patternID ++ ")" }, trace, b2)

/-- `AutoElement::addShaderResources`: dispatch on the shader capability
probes — gradients first (`asAGradient`), then image shaders (`isAImage`);
other kinds are skipped. -/
def addShaderResources (shader : SkShader) (res : Resources)
    (b : ResourceBucket) : Resources × Trace × ResourceBucket :=
  match shader.kind with
  | .linearGradient _ => addGradientShaderResources shader res b
  | .otherGradient => (res, [], b)
  | .image info => addImageShaderResources info res b
  | .other => (res, [], b)

/-- `AutoElement::addColorFilterResources`: the `<filter>` spanning 0–100% of
both axes holding a `feFlood` of the filter color followed by a `feComposite`
with operator "in"; the color-filter resource points at the filter id. -/
def addColorFilterResources (filterColor : SkColor) (res : Resources)
    (b : ResourceBucket) : Resources × Trace × ResourceBucket :=
  let (colorfilterID, b') := b.addColorFilter
  let trace := elemT "filter"
    ([Event.attrS "id" colorfilterID,
      Event.attrS "x" "0%", Event.attrS "y" "0%",
      Event.attrS "width" "100%", Event.attrS "height" "100%"] ++
     elemT "feFlood"
       [Event.attrS "flood-color" (svg_color filterColor),
        Event.attrScalar "flood-opacity" (svg_opacity filterColor),
        Event.attrS "result" "flood"] ++
     elemT "feComposite"
       [Event.attrS "in" "flood", Event.attrS "operator" "in"])
  ({ res with fColorFilter := "url(#" ++ colorfilterID ++ ")" }, trace, b')

/-- The clip/shader stage of `AutoElement::addResources`: the `<defs>` scope
is opened exactly when a clip or a shader is present. -/
def addResourcesDefs (mc : MxCp) (paint : SkPaint) (b : ResourceBucket) :
    Resources × Trace × ResourceBucket :=
  let res0 := Resources.ofPaint paint
  let hasClip : Bool := ¬mc.fClipStack.isWideOpen
  let hasShader : Bool := paint.shader.isSome
  if hasClip || hasShader then
    let rC := if hasClip then addClipResources mc res0 b else (res0, [], b)
    let rS :=
      match paint.shader with
      | some shader => addShaderResources shader rC.1 rC.2.2
      | none => (rC.1, [], rC.2.2)
    (rS.1, elemT "defs" (rC.2.1 ++ rS.2.1), rS.2.2)
  else (res0, [], b)

/-- The color-filter stage of `AutoElement::addResources`: runs after the
`<defs>` scope has closed, so its `<filter>` definition lands outside it. -/
def addResourcesCF (paint : SkPaint)
    (r1 : Resources × Trace × ResourceBucket) :
    Resources × Trace × ResourceBucket :=
  match paint.colorFilter with
  | some cf =>
      match cf.asColorMode with
      | some (color, mode) =>
          if mode = .srcIn then
            let r2 := addColorFilterResources color r1.1 r1.2.2
            (r2.1, r1.2.1 ++ r2.2.1, r2.2.2)
          else r1
      | none => r1
  | none => r1

def addResources (mc : MxCp) (paint : SkPaint) (b : ResourceBucket) :
    Resources × Trace × ResourceBucket :=
  addResourcesCF paint (addResourcesDefs mc paint b)

/-- `AutoElement::addPaint`: presentation attributes for the drawn sides.
Non-drawn side gets the literal "none"; fill/stroke reference the paint
server; hairline strokes (width 0) become width 1 plus
`vector-effect="non-scaling-stroke"`; cap/join omitted at their SVG defaults;
miterlimit only for miter joins; opacity attributes only when alpha is not
fully opaque; a `filter` attribute whenever a color-filter resource exists. -/
def addPaint (paint : SkPaint) (resources : Resources) : Trace :=
  let fillPart :=
    if paint.style = .fill ∨ paint.style = .strokeAndFill then
      [Event.attrS "fill" resources.fPaintServer] ++
      (if paint.color.a ≠ 255 then
         [Event.attrScalar "fill-opacity" (svg_opacity paint.color)]
       else [])
    else [Event.attrS "fill" "none"]
  let filterPart :=
    if resources.fColorFilter ≠ "" then
      [Event.attrS "filter" resources.fColorFilter]
    else []
  let strokePart :=
    if paint.style = .stroke ∨ paint.style = .strokeAndFill then
      [Event.attrS "stroke" resources.fPaintServer] ++
      (if paint.strokeWidth = 0 then
         [Event.attrS "vector-effect" "non-scaling-stroke",
          Event.attrScalar "stroke-width" 1]
       else [Event.attrScalar "stroke-width" paint.strokeWidth]) ++
      (match svg_cap paint.strokeCap with
       | some cap => [Event.attrS "stroke-linecap" cap]
       | none => []) ++
      (match svg_join paint.strokeJoin with
       | some join => [Event.attrS "stroke-linejoin" join]
       | none => []) ++
      (if paint.strokeJoin = .miter then
         [Event.attrScalar "stroke-miterlimit" paint.strokeMiter]
       else []) ++
      (if paint.color.a ≠ 255 then
         [Event.attrScalar "stroke-opacity" (svg_opacity paint.color)]
       else [])
    else [Event.attrS "stroke" "none"]
  fillPart ++ filterPart ++ strokePart

/-- `SkTPin(weight, 100, 900)`. -/
def pinWeight (w : Int) : Int := min 900 (max 100 w)

/-- `AutoElement::addTextAttributes`: font size, anchor, style, weight,
stretch and the deduplicated family list. -/
def addTextAttributes (paint : SkPaint) : Trace :=
  let tface := paint.typeface
  let weights := ["100", "200", "300", "normal", "400", "500", "600", "bold",
                  "800", "900"]
  let stretches := ["ultra-condensed", "extra-condensed", "condensed",
                    "semi-condensed", "normal", "semi-expanded", "expanded",
                    "extra-expanded", "ultra-expanded"]
  let weightIndex := ((pinWeight tface.weight - 50) / 100).toNat
  let stretchIndex := (tface.fontWidth - 1).toNat
  let familyName := (tface.familyNames.foldl
    (fun (acc : String × List String) s =>
      if s ∈ acc.2 then acc
      else (if acc.1 = "" then s else acc.1 ++ ", " ++ s, s :: acc.2))
    ("", [])).1
  [Event.attrScalar "font-size" paint.textSize] ++
  (match svg_text_align paint.textAlign with
   | some a => [Event.attrS "text-anchor" a]
   | none => []) ++
  (match tface.slant with
   | .italic => [Event.attrS "font-style" "italic"]
   | .oblique => [Event.attrS "font-style" "oblique"]
   | .upright => []) ++
  (if weightIndex ≠ 3 then
     [Event.attrS "font-weight" (weights.getD weightIndex "")]
   else []) ++
  (if stretchIndex ≠ 4 then
     [Event.attrS "font-stretch" (stretches.getD stretchIndex "")]
   else []) ++
  (if familyName ≠ "" then [Event.attrS "font-family" familyName] else [])

/-- The `transform` attribute added by the paint-carrying `AutoElement`
constructor when the matrix is not identity. -/
def transformAttr (m : SkMatrix) : Trace :=
  if ¬m.isIdentity then [Event.attrS "transform" (svg_transform m)] else []

/-- The paint-carrying `AutoElement` constructor plus its RAII teardown, as a
trace: resource resolution first; then, when a clip resource exists, an
implicit `<g clip-path=...>` wrapper whose scope encloses the named element
(the wrapper is a member destroyed after the destructor body, so its closing
tag follows the inner closing tag); the named element carries the paint
presentation attributes, the optional transform, and then the caller-supplied
content.  `extrasF` is the caller content, which may itself allocate from the
bucket. -/
def paintedElementF (name : String) (mc : MxCp) (paint : SkPaint)
    (extrasF : ResourceBucket → Trace × ResourceBucket) (b : ResourceBucket) :
    Trace × ResourceBucket :=
  let (res, resTrace, b1) := addResources mc paint b
  let (extras, b2) := extrasF b1
  let inner := elemT name (addPaint paint res ++ transformAttr mc.fMatrix ++
    extras)
  let trace :=
    if res.fClip ≠ "" then
      resTrace ++ elemT "g" (Event.attrS "clip-path" res.fClip :: inner)
    else resTrace ++ inner
  (trace, b2)

/-- `paintedElementF` with caller content that allocates nothing. -/
def paintedElement (name : String) (mc : MxCp) (paint : SkPaint)
    (extras : Trace) (b : ResourceBucket) : Trace × ResourceBucket :=
  paintedElementF name mc paint (fun b => (extras, b)) b

/-! ## Device draw entry points -/

/-- `SkCanvas::PointMode`. -/
inductive PointMode where
  | points | lines | polygon
deriving DecidableEq, Repr

/-- The consecutive disjoint pairs consumed by the `kLines_PointMode` loop
(`for (i = 0; i < count - 1; i += 2)`): one pair per two points, an odd
trailing point ignored. -/
def linesPairs : List SkPoint → List (SkPoint × SkPoint)
  | p0 :: p1 :: rest => (p0, p1) :: linesPairs rest
  | _ => []

/-- The loop bound `count - 1` as computed on the `size_t` count: for
`count = 0` the subtraction wraps to `2^64 - 1`. -/
def linesLoopBound (count : Nat) : Nat := (count + (2 ^ 64 - 1)) % 2 ^ 64

/-- The lines-mode loop body reads `pts[i]` and `pts[i+1]` for every even
`i` below the loop bound; this says some such read is past the end of the
`count`-element array. -/
def linesOutOfBounds (count : Nat) : Prop :=
  ∃ i, i < linesLoopBound count ∧ i % 2 = 0 ∧ i + 1 ≥ count

/-- `drawPoints`: points mode is a TODO no-op; lines mode emits one painted
`<path>` per consecutive pair; polygon mode with more than one point emits a
single painted `<path>` whose verbs are `addPoly(pts, count, false)` (a
moveTo and lineTos, no close verb) followed by `moveTo(pts[0])`.  The trace
is the in-bounds behavior; the `count = 0` lines-mode out-of-bounds read is
captured by `linesOutOfBounds`. -/
def drawPoints (mc : MxCp) (mode : PointMode) (pts : List SkPoint)
    (paint : SkPaint) (b : ResourceBucket) : Trace × ResourceBucket :=
  match mode with
  | .points => ([], b)
  | .lines =>
      (linesPairs pts).foldl
        (fun (acc : Trace × ResourceBucket) (pr : SkPoint × SkPoint) =>
          let path : SkPath :=
            ⟨[PathVerb.move pr.1, PathVerb.line pr.2], .winding, none⟩
          let (t, b') := paintedElement "path" mc paint
            (addPathAttributes path) acc.2
          (acc.1 ++ t, b'))
        ([], b)
  | .polygon =>
      match pts with
      | p0 :: p1 :: rest =>
          let path : SkPath :=
            ⟨PathVerb.move p0 :: (p1 :: rest).map PathVerb.line ++
              [PathVerb.move p0], .winding, none⟩
          paintedElement "path" mc paint (addPathAttributes path) b
      | _ => ([], b)

/-- `drawPaint`: a painted `<rect>` covering the device. -/
def drawPaint (mc : MxCp) (paint : SkPaint) (w h : Int) (b : ResourceBucket) :
    Trace × ResourceBucket :=
  paintedElement "rect" mc paint
    (addRectAttributes (SkRect.mkWH (w : ℚ) (h : ℚ))) b

/-- The annotation keys the device recognizes. -/
inductive AnnotKey where
  | url | namedDest | otherKey
deriving DecidableEq, Repr

/-- `drawAnnot`: skip on a null value or foreign key; clip the rect,
skip when the device-space bounds are empty, else an `<a xlink:href=...>`
anchor around an invisible rect. -/
def drawAnnot (mc : MxCp) (rect : SkRect) (key : AnnotKey)
    (value : Option String) (b : ResourceBucket) : Trace × ResourceBucket :=
  match value with
  | none => ([], b)
  | some url =>
      if key = .url ∨ key = .namedDest then
        let transformedRect := mc.fClipStack.clippedBounds rect mc.fMatrix
        if transformedRect.isEmpty then ([], b)
        else
          (elemT "a" (Event.attrS "xlink:href" url ::
             elemT "rect" (Event.attrS "fill-opacity" "0.0" ::
               addRectAttributes transformedRect)), b)
      else ([], b)

/-- `drawRect`: when the paint's shader tiles with repeat, wrap everything in
an extra painted `<svg>` viewport-reset element sized to the rect and draw
the rect itself 100%-sized; otherwise a painted `<rect>` with the literal
coordinates. -/
def drawRect (mc : MxCp) (r : SkRect) (paint : SkPaint) (b : ResourceBucket) :
    Trace × ResourceBucket :=
  if RequiresViewportReset paint then
    paintedElementF "svg" mc paint
      (fun b1 =>
        let (tRect, b2) := paintedElement "rect" mc paint
          [Event.attrInt "x" 0, Event.attrInt "y" 0,
           Event.attrS "width" "100%", Event.attrS "height" "100%"] b1
        (addRectAttributes r ++ tRect, b2)) b
  else
    paintedElement "rect" mc paint (addRectAttributes r) b

/-- `drawOval`: a painted `<ellipse>` with computed center and radii. -/
def drawOval (mc : MxCp) (oval : SkRect) (paint : SkPaint)
    (b : ResourceBucket) : Trace × ResourceBucket :=
  paintedElement "ellipse" mc paint
    [Event.attrScalar "cx" oval.centerX, Event.attrScalar "cy" oval.centerY,
     Event.attrScalar "rx" (oval.width / 2),
     Event.attrScalar "ry" (oval.height / 2)] b

/-- `drawRRect`: lower to a path (`SkPath::addRRect` is the consumed geometry
collaborator; its result is the `rrPath` input) and emit a painted
`<path>`. -/
def drawRRect (mc : MxCp) (rrPath : SkPath) (paint : SkPaint)
    (b : ResourceBucket) : Trace × ResourceBucket :=
  paintedElement "path" mc paint (addPathAttributes rrPath) b

/-- `drawPath`: a painted `<path>`, plus `fill-rule="evenodd"` for even-odd
fills. -/
def drawPath (mc : MxCp) (path : SkPath) (paint : SkPaint)
    (b : ResourceBucket) : Trace × ResourceBucket :=
  paintedElement "path" mc paint
    (addPathAttributes path ++
     (if path.fillType = .evenOdd then [Event.attrS "fill-rule" "evenodd"]
      else [])) b

/-- `drawBitmapCommon`: when PNG encoding fails, emit nothing at all;
otherwise define the `<image>` inside a `<defs>` scope and reference it from
a painted `<use>`. -/
def drawBitmapCommon (mc : MxCp) (bm : SkBitmap) (paint : SkPaint)
    (b : ResourceBucket) : Trace × ResourceBucket :=
  match bm.encodePng80 with
  | none => ([], b)
  | some pngData =>
      let svgImageData := "data:image/png;base64," ++ base64Encode pngData
      let (imageID, b1) := b.addImage
      let defsTrace := elemT "defs"
        (elemT "image"
          [Event.attrS "id" imageID,
           Event.attrInt "width" bm.width, Event.attrInt "height" bm.height,
           Event.attrS "xlink:href" svgImageData])
      let (useTrace, b2) := paintedElement "use" mc paint
        [Event.attrS "xlink:href" ("#" ++ imageID)] b1
      (defsTrace ++ useTrace, b2)

/-- `drawPosText`: a painted `<text>` with font attributes, the builder's
position strings and its escaped text content. -/
def drawPosText (mc : MxCp) (cs : List Nat) (pos : List SkScalar)
    (scalarsPerPos : Nat) (offset : SkPoint) (paint : SkPaint)
    (b : ResourceBucket) : Trace × ResourceBucket :=
  let builder := svgTextBuilder cs offset scalarsPerPos pos
  paintedElement "text" mc paint
    (addTextAttributes paint ++
     [Event.attrS "x" builder.fPosX, Event.attrS "y" builder.fPosY,
      Event.text ⟨builder.fText⟩]) b

/-- `drawTextOnPath`: define the path in a `<defs>` scope, then a plain
`<text>` wrapping a `<textPath>` that references it, with a `startOffset` of
50%/100% for center/right alignment. -/
def drawTextOnPath (cs : List Nat) (path : SkPath)
    (matrix : Option SkMatrix) (paint : SkPaint) (b : ResourceBucket) :
    Trace × ResourceBucket :=
  let (pathID, b1) := b.addPath
  let defsTrace := elemT "defs"
    (elemT "path" (Event.attrS "id" pathID :: addPathAttributes path))
  let builder := svgTextBuilder cs ⟨0, 0⟩ 0 []
  let textTrace := elemT "text"
    (addTextAttributes paint ++
     (match matrix with
      | some m => if ¬m.isIdentity then
          [Event.attrS "transform" (svg_transform m)] else []
      | none => []) ++
     elemT "textPath"
       (Event.attrS "xlink:href" ("#" ++ pathID) ::
        (if paint.textAlign ≠ .left then
           [Event.attrS "startOffset"
             (if paint.textAlign = .center then "50%" else "100%")]
         else []) ++
        [Event.text ⟨builder.fText⟩]))
  (defsTrace ++ textTrace, b1)

/-- One recorded draw call against the device.  The bitmap entry points
(`drawBitmap`, `drawSprite`, `drawBitmapRect`) all reduce to
`drawBitmapCommon` at an adjusted matrix+clip context, so the context is
carried as data. -/
inductive DrawCmd where
  | cPaint (mc : MxCp) (paint : SkPaint) (w h : Int)
  | cAnnot (mc : MxCp) (rect : SkRect) (key : AnnotKey)
      (value : Option String)
  | cPoints (mc : MxCp) (mode : PointMode) (pts : List SkPoint)
      (paint : SkPaint)
  | cRect (mc : MxCp) (r : SkRect) (paint : SkPaint)
  | cOval (mc : MxCp) (oval : SkRect) (paint : SkPaint)
  | cRRect (mc : MxCp) (rrPath : SkPath) (paint : SkPaint)
  | cPath (mc : MxCp) (path : SkPath) (paint : SkPaint)
  | cBitmap (mc : MxCp) (bm : SkBitmap) (paint : SkPaint)
  | cPosText (mc : MxCp) (cs : List Nat) (pos : List SkScalar)
      (scalarsPerPos : Nat) (offset : SkPoint) (paint : SkPaint)
  | cTextOnPath (cs : List Nat) (path : SkPath) (matrix : Option SkMatrix)
      (paint : SkPaint)
  | cVertices
  | cDevice

/-- Dispatch one draw call. -/
def runCmd (b : ResourceBucket) : DrawCmd → Trace × ResourceBucket
  | .cPaint mc paint w h => drawPaint mc paint w h b
  | .cAnnot mc rect key value => drawAnnot mc rect key value b
  | .cPoints mc mode pts paint => drawPoints mc mode pts paint b
  | .cRect mc r paint => drawRect mc r paint b
  | .cOval mc oval paint => drawOval mc oval paint b
  | .cRRect mc rrPath paint => drawRRect mc rrPath paint b
  | .cPath mc path paint => drawPath mc path paint b
  | .cBitmap mc bm paint => drawBitmapCommon mc bm paint b
  | .cPosText mc cs pos spp offset paint =>
      drawPosText mc cs pos spp offset paint b
  | .cTextOnPath cs path matrix paint => drawTextOnPath cs path matrix paint b
  | .cVertices => ([], b)
  | .cDevice => ([], b)

/-- Run a sequence of draw calls, threading the resource bucket. -/
def runCmds (b : ResourceBucket) : List DrawCmd → Trace × ResourceBucket
  | [] => ([], b)
  | cmd :: cmds =>
      let (t, b') := runCmd b cmd
      let (ts, b'') := runCmds b' cmds
      (t ++ ts, b'')

/-- A whole device lifetime: the root `<svg>` element (opened by the
constructor, closed exactly once by the destructor) around the draw-call
traces. -/
def runDevice (w h : Int) (cmds : List DrawCmd) : Trace :=
  elemT "svg"
    ([Event.attrS "xmlns" "http://www.w3.org/2000/svg",
      Event.attrS "xmlns:xlink" "http://www.w3.org/1999/xlink",
      Event.attrInt "width" w, Event.attrInt "height" h] ++
     (runCmds ResourceBucket.init cmds).1)

/-! ## Nesting discipline of the writer trace -/

/-- Run the element stack depth across a trace: `start` pushes, `endElem`
pops (failing when the stack is empty), flat events leave it unchanged. -/
def depthRun : Trace → Nat → Option Nat
  | [], d => some d
  | .start _ :: t, d => depthRun t (d + 1)
  | .endElem :: t, d =>
      match d with
      | 0 => none
      | d' + 1 => depthRun t d'
  | .attrS _ _ :: t, d => depthRun t d
  | .attrInt _ _ :: t, d => depthRun t d
  | .attrScalar _ _ :: t, d => depthRun t d
  | .text _ :: t, d => depthRun t d

/-- A trace is stack-balanced: starting at depth 0 it never pops an empty
stack and ends at depth 0. -/
def TraceBalanced (t : Trace) : Prop := depthRun t 0 = some 0

/-- A trace is complete: from any depth it returns to that same depth without
ever popping below it (every element it opens, it closes, in LIFO order). -/
def Complete (t : Trace) : Prop := ∀ d, depthRun t d = some d

def countStarts (t : Trace) : Nat :=
  t.countP fun e => match e with | .start _ => true | _ => false

def countEnds (t : Trace) : Nat :=
  t.countP fun e => match e with | .endElem => true | _ => false

theorem depthRun_append (a b : Trace) (d : Nat) :
    depthRun (a ++ b) d = (depthRun a d).bind (depthRun b) := by
  induction a generalizing d with
  | nil => simp [depthRun]
  | cons e t ih =>
      cases e with
      | start _ => simp [depthRun, ih]
      | endElem =>
          cases d with
          | zero => simp [depthRun]
          | succ d' => simp [depthRun, ih]
      | attrS _ _ => simp [depthRun, ih]
      | attrInt _ _ => simp [depthRun, ih]
      | attrScalar _ _ => simp [depthRun, ih]
      | text _ => simp [depthRun, ih]

theorem Complete.traceBalanced {t : Trace} (h : Complete t) : TraceBalanced t := h 0

theorem Complete.nil : Complete ([] : Trace) := fun _ => rfl

theorem Complete.append {a b : Trace} (ha : Complete a) (hb : Complete b) :
    Complete (a ++ b) := by
  intro d
  rw [depthRun_append, ha d]
  exact hb d

theorem Complete.elemT {m : Trace} (hm : Complete m) (name : String) :
    Complete (elemT name m) := by
  intro d
  show depthRun (Event.start name :: m ++ [Event.endElem]) d = some d
  rw [show depthRun (Event.start name :: m ++ [Event.endElem]) d =
        depthRun (m ++ [Event.endElem]) (d + 1) from rfl,
      depthRun_append, hm (d + 1)]
  rfl

theorem Complete.cons_flat {e : Event} (he : e.isFlat = true) {t : Trace}
    (ht : Complete t) : Complete (e :: t) := by
  intro d
  cases e <;> simp_all [Event.isFlat, depthRun] <;> exact ht d

theorem Complete.flat {t : Trace} (h : ∀ e ∈ t, e.isFlat = true) :
    Complete t := by
  induction t with
  | nil => exact Complete.nil
  | cons e t ih =>
      exact Complete.cons_flat (h e (List.mem_cons_self e t))
        (ih fun x hx => h x (List.mem_cons_of_mem e hx))

theorem Complete.flatMap {α : Type _} {l : List α} {f : α → Trace}
    (h : ∀ x ∈ l, Complete (f x)) : Complete (l.flatMap f) := by
  induction l with
  | nil => exact Complete.nil
  | cons x xs ih =>
      exact (h x (List.mem_cons_self x xs)).append
        (ih fun y hy => h y (List.mem_cons_of_mem x hy))

theorem Complete.ite {p : Prop} [Decidable p] {a b : Trace}
    (ha : Complete a) (hb : Complete b) : Complete (if p then a else b) := by
  split <;> assumption

/-- Starts and ends of a completable run differ exactly by the depth
change. -/
theorem depthRun_counts (t : Trace) :
    ∀ d d', depthRun t d = some d' →
      d + countStarts t = d' + countEnds t := by
  induction t with
  | nil =>
      intro d d' h
      simp [depthRun] at h
      simp [h, countStarts, countEnds]
  | cons e t ih =>
      intro d d' h
      cases e with
      | start _ =>
          have := ih (d + 1) d' h
          simp [countStarts, countEnds, List.countP_cons] at *
          omega
      | endElem =>
          cases d with
          | zero => simp [depthRun] at h
          | succ d0 =>
              have := ih d0 d' h
              simp [countStarts, countEnds, List.countP_cons] at *
              omega
      | attrS _ _ =>
          have := ih d d' h
          simp [countStarts, countEnds, List.countP_cons] at *
          omega
      | attrInt _ _ =>
          have := ih d d' h
          simp [countStarts, countEnds, List.countP_cons] at *
          omega
      | attrScalar _ _ =>
          have := ih d d' h
          simp [countStarts, countEnds, List.countP_cons] at *
          omega
      | text _ =>
          have := ih d d' h
          simp [countStarts, countEnds, List.countP_cons] at *
          omega

theorem TraceBalanced.counts {t : Trace} (h : TraceBalanced t) :
    countStarts t = countEnds t := by
  have := depthRun_counts t 0 0 h
  omega

/-! ## Every emission of the device is a complete, LIFO-nested trace -/

theorem Complete.consAttrS (n v : String) {t : Trace} (h : Complete t) :
    Complete (Event.attrS n v :: t) := by
  refine Complete.cons_flat ?_ h; rfl

theorem Complete.consAttrInt (n : String) (v : Int) {t : Trace}
    (h : Complete t) : Complete (Event.attrInt n v :: t) := by
  refine Complete.cons_flat ?_ h; rfl

theorem Complete.consAttrScalar (n : String) (v : SkScalar) {t : Trace}
    (h : Complete t) : Complete (Event.attrScalar n v :: t) := by
  refine Complete.cons_flat ?_ h; rfl

theorem Complete.consText (s : String) {t : Trace} (h : Complete t) :
    Complete (Event.text s :: t) := by
  refine Complete.cons_flat ?_ h; rfl

theorem complete_addRectAttributes (rc : SkRect) :
    Complete (addRectAttributes rc) := by
  unfold addRectAttributes
  repeat
    first
    | exact Complete.nil
    | apply Complete.append
    | apply Complete.ite
    | apply Complete.consAttrS
    | apply Complete.consAttrInt
    | apply Complete.consAttrScalar
    | apply Complete.consText

theorem complete_addPathAttributes (p : SkPath) :
    Complete (addPathAttributes p) := by
  unfold addPathAttributes
  exact Complete.consAttrS _ _ Complete.nil

theorem complete_addClipResources (mc : MxCp) (res : Resources)
    (b : ResourceBucket) : Complete (addClipResources mc res b).2.1 := by
  unfold addClipResources
  dsimp only [ResourceBucket.addClip]
  apply Complete.elemT
  apply Complete.consAttrS
  split
  · apply Complete.elemT
    exact (complete_addRectAttributes _).append (Complete.consAttrS _ _ .nil)
  · apply Complete.elemT
    exact (complete_addPathAttributes _).append (Complete.consAttrS _ _ .nil)

theorem complete_addLinearGradientDef (info : GradientInfo)
    (shader : SkShader) (b : ResourceBucket) :
    Complete (addLinearGradientDef info shader b).2.1 := by
  unfold addLinearGradientDef
  dsimp only [ResourceBucket.addLinearGradient]
  apply Complete.elemT
  apply Complete.append
  · repeat
      first
      | exact Complete.nil
      | apply Complete.append
      | apply Complete.ite
      | apply Complete.consAttrS
      | apply Complete.consAttrScalar
  · apply Complete.flatMap
    intro x _
    apply Complete.elemT
    repeat
      first
      | exact Complete.nil
      | apply Complete.append
      | apply Complete.ite
      | apply Complete.consAttrS
      | apply Complete.consAttrScalar

theorem complete_addGradientShaderResources (shader : SkShader)
    (res : Resources) (b : ResourceBucket) :
    Complete (addGradientShaderResources shader res b).2.1 := by
  unfold addGradientShaderResources
  rcases shader with ⟨kind, lm⟩
  cases kind <;> dsimp only
  case linearGradient info =>
    have h := complete_addLinearGradientDef info ⟨.linearGradient info, lm⟩ b
    revert h
    rcases addLinearGradientDef info ⟨.linearGradient info, lm⟩ b with
      ⟨id, trace, b'⟩
    exact fun h => h
  all_goals exact Complete.nil

theorem complete_addImageShaderResources (info : ImageShaderInfo)
    (res : Resources) (b : ResourceBucket) :
    Complete (addImageShaderResources info res b).2.1 := by
  unfold addImageShaderResources
  cases AsDataUri info.image <;> dsimp only
  · exact Complete.nil
  · dsimp only [ResourceBucket.addPattern, ResourceBucket.addImage]
    apply Complete.elemT
    repeat
      first
      | exact Complete.nil
      | apply Complete.append
      | apply Complete.elemT
      | apply Complete.consAttrS
      | apply Complete.consAttrInt

theorem complete_addShaderResources (shader : SkShader) (res : Resources)
    (b : ResourceBucket) : Complete (addShaderResources shader res b).2.1 := by
  unfold addShaderResources
  rcases shader with ⟨kind, lm⟩
  cases kind <;> dsimp only
  case linearGradient info =>
    exact complete_addGradientShaderResources ⟨.linearGradient info, lm⟩ res b
  case image info => exact complete_addImageShaderResources info res b
  all_goals exact Complete.nil

theorem complete_addColorFilterResources (filterColor : SkColor)
    (res : Resources) (b : ResourceBucket) :
    Complete (addColorFilterResources filterColor res b).2.1 := by
  unfold addColorFilterResources
  dsimp only [ResourceBucket.addColorFilter]
  apply Complete.elemT
  repeat
    first
    | exact Complete.nil
    | apply Complete.append
    | apply Complete.elemT
    | apply Complete.consAttrS
    | apply Complete.consAttrScalar

theorem complete_addResourcesDefs (mc : MxCp) (paint : SkPaint)
    (b : ResourceBucket) : Complete (addResourcesDefs mc paint b).2.1 := by
  unfold addResourcesDefs
  dsimp only
  split
  · apply Complete.elemT
    apply Complete.append
    · split
      · exact complete_addClipResources _ _ _
      · exact Complete.nil
    · cases paint.shader with
      | some shader => exact complete_addShaderResources shader _ _
      | none => exact Complete.nil
  · exact Complete.nil

theorem complete_addResourcesCF (paint : SkPaint)
    (r1 : Resources × Trace × ResourceBucket) (h1 : Complete r1.2.1) :
    Complete (addResourcesCF paint r1).2.1 := by
  unfold addResourcesCF
  cases paint.colorFilter with
  | none => exact h1
  | some cf =>
      dsimp only
      cases cf.asColorMode with
      | none => exact h1
      | some cm =>
          rcases cm with ⟨color, mode⟩
          dsimp only
          split
          · exact h1.append (complete_addColorFilterResources color r1.1 r1.2.2)
          · exact h1

theorem complete_addResources (mc : MxCp) (paint : SkPaint)
    (b : ResourceBucket) : Complete (addResources mc paint b).2.1 :=
  complete_addResourcesCF paint _ (complete_addResourcesDefs mc paint b)

theorem complete_addPaint (paint : SkPaint) (res : Resources) :
    Complete (addPaint paint res) := by
  unfold addPaint
  dsimp only
  repeat
    first
    | exact Complete.nil
    | apply Complete.append
    | apply Complete.ite
    | split
    | apply Complete.consAttrS
    | apply Complete.consAttrScalar

theorem complete_addTextAttributes (paint : SkPaint) :
    Complete (addTextAttributes paint) := by
  unfold addTextAttributes
  dsimp only
  repeat
    first
    | exact Complete.nil
    | apply Complete.append
    | apply Complete.ite
    | split
    | apply Complete.consAttrS
    | apply Complete.consAttrScalar

theorem complete_transformAttr (m : SkMatrix) : Complete (transformAttr m) := by
  unfold transformAttr
  exact Complete.ite (Complete.consAttrS _ _ .nil) .nil

theorem complete_paintedElementF (name : String) (mc : MxCp) (paint : SkPaint)
    (extrasF : ResourceBucket → Trace × ResourceBucket) (b : ResourceBucket)
    (hex : ∀ b', Complete (extrasF b').1) :
    Complete (paintedElementF name mc paint extrasF b).1 := by
  unfold paintedElementF
  dsimp only
  have hinner : Complete (elemT name (addPaint paint
      (addResources mc paint b).1 ++ transformAttr mc.fMatrix ++
      (extrasF (addResources mc paint b).2.2).1)) :=
    Complete.elemT (((complete_addPaint _ _).append
      (complete_transformAttr _)).append (hex _)) name
  split
  · exact (complete_addResources mc paint b).append
      (Complete.elemT (Complete.consAttrS _ _ hinner) _)
  · exact (complete_addResources mc paint b).append hinner

theorem complete_paintedElement (name : String) (mc : MxCp) (paint : SkPaint)
    (extras : Trace) (b : ResourceBucket) (hex : Complete extras) :
    Complete (paintedElement name mc paint extras b).1 :=
  complete_paintedElementF name mc paint _ b fun _ => hex

theorem complete_drawPoints (mc : MxCp) (mode : PointMode)
    (pts : List SkPoint) (paint : SkPaint) (b : ResourceBucket) :
    Complete (drawPoints mc mode pts paint b).1 := by
  cases mode with
  | points => exact Complete.nil
  | lines =>
      show Complete ((linesPairs pts).foldl _ ([], b)).1
      have h : ∀ prs (acc : Trace × ResourceBucket), Complete acc.1 →
          Complete ((List.foldl (fun (acc : Trace × ResourceBucket)
            (pr : SkPoint × SkPoint) =>
              let path : SkPath :=
                ⟨[PathVerb.move pr.1, PathVerb.line pr.2], .winding, none⟩
              let r := paintedElement "path" mc paint
                (addPathAttributes path) acc.2
              (acc.1 ++ r.1, r.2)) acc prs)).1 := by
        intro prs
        induction prs with
        | nil => intro acc h; exact h
        | cons pr prs ih =>
            intro acc h
            apply ih
            exact h.append (complete_paintedElement _ _ _ _ _
              (complete_addPathAttributes _))
      exact h (linesPairs pts) ([], b) Complete.nil
  | polygon =>
      show Complete (match pts with
        | p0 :: p1 :: rest => _
        | _ => ([], b)).1
      match pts with
      | [] => exact Complete.nil
      | [p] => exact Complete.nil
      | p0 :: p1 :: rest =>
          exact complete_paintedElement _ _ _ _ _
            (complete_addPathAttributes _)

theorem complete_drawBitmapCommon (mc : MxCp) (bm : SkBitmap)
    (paint : SkPaint) (b : ResourceBucket) :
    Complete (drawBitmapCommon mc bm paint b).1 := by
  unfold drawBitmapCommon
  cases bm.encodePng80 with
  | none => exact Complete.nil
  | some png =>
      dsimp only [ResourceBucket.addImage]
      apply Complete.append
      · apply Complete.elemT
        apply Complete.elemT
        repeat
          first
          | exact Complete.nil
          | apply Complete.consAttrS
          | apply Complete.consAttrInt
      · exact complete_paintedElement _ _ _ _ _
          (Complete.consAttrS _ _ .nil)

theorem complete_drawTextOnPath (cs : List Nat) (path : SkPath)
    (matrix : Option SkMatrix) (paint : SkPaint) (b : ResourceBucket) :
    Complete (drawTextOnPath cs path matrix paint b).1 := by
  unfold drawTextOnPath
  dsimp only [ResourceBucket.addPath]
  apply Complete.append
  · exact Complete.elemT (Complete.elemT
      (Complete.consAttrS _ _ (complete_addPathAttributes _)) _) _
  · apply Complete.elemT
    apply Complete.append
    · apply Complete.append
      · exact complete_addTextAttributes _
      · cases matrix with
        | none => exact Complete.nil
        | some m =>
            exact Complete.ite (Complete.consAttrS _ _ .nil) .nil
    · apply Complete.elemT
      apply Complete.consAttrS
      exact Complete.append (Complete.ite (Complete.consAttrS _ _ .nil) .nil)
        (Complete.consText _ .nil)

theorem complete_runCmd (b : ResourceBucket) (cmd : DrawCmd) :
    Complete (runCmd b cmd).1 := by
  cases cmd with
  | cPaint mc paint w h =>
      exact complete_paintedElement _ _ _ _ _ (complete_addRectAttributes _)
  | cAnnot mc rect key value =>
      show Complete (drawAnnot mc rect key value b).1
      unfold drawAnnot
      cases value with
      | none => exact Complete.nil
      | some url =>
          dsimp only
          split
          · split
            · exact Complete.nil
            · exact Complete.elemT (Complete.consAttrS _ _
                (Complete.elemT (Complete.consAttrS _ _
                  (complete_addRectAttributes _)) _)) _
          · exact Complete.nil
  | cPoints mc mode pts paint => exact complete_drawPoints mc mode pts paint b
  | cRect mc r paint =>
      show Complete (drawRect mc r paint b).1
      unfold drawRect
      split
      · apply complete_paintedElementF
        intro b'
        exact (complete_addRectAttributes _).append
          (complete_paintedElement _ _ _ _ _
            (Complete.consAttrInt _ _ (Complete.consAttrInt _ _
              (Complete.consAttrS _ _ (Complete.consAttrS _ _ .nil)))))
      · exact complete_paintedElement _ _ _ _ _ (complete_addRectAttributes _)
  | cOval mc oval paint =>
      exact complete_paintedElement _ _ _ _ _
        (Complete.consAttrScalar _ _ (Complete.consAttrScalar _ _
          (Complete.consAttrScalar _ _ (Complete.consAttrScalar _ _ .nil))))
  | cRRect mc rrPath paint =>
      exact complete_paintedElement _ _ _ _ _ (complete_addPathAttributes _)
  | cPath mc path paint =>
      exact complete_paintedElement _ _ _ _ _
        ((complete_addPathAttributes _).append
          (Complete.ite (Complete.consAttrS _ _ .nil) .nil))
  | cBitmap mc bm paint => exact complete_drawBitmapCommon mc bm paint b
  | cPosText mc cs pos spp offset paint =>
      exact complete_paintedElement _ _ _ _ _
        ((complete_addTextAttributes _).append
          (Complete.consAttrS _ _ (Complete.consAttrS _ _
            (Complete.consText _ .nil))))
  | cTextOnPath cs path matrix paint =>
      exact complete_drawTextOnPath cs path matrix paint b
  | cVertices => exact Complete.nil
  | cDevice => exact Complete.nil

theorem complete_runCmds (cmds : List DrawCmd) :
    ∀ b : ResourceBucket, Complete (runCmds b cmds).1 := by
  induction cmds with
  | nil => intro b; exact Complete.nil
  | cons cmd cmds ih =>
      intro b
      show Complete ((runCmd b cmd).1 ++ (runCmds (runCmd b cmd).2 cmds).1)
      exact (complete_runCmd b cmd).append (ih _)

theorem complete_runDevice (w h : Int) (cmds : List DrawCmd) :
    Complete (runDevice w h cmds) := by
  unfold runDevice
  apply Complete.elemT
  exact Complete.consAttrS _ _ (Complete.consAttrS _ _
    (Complete.consAttrInt _ _ (Complete.consAttrInt _ _
      (complete_runCmds cmds _))))

/-- C1: for every sequence of draw calls on one device, the emitted writer
trace is stack-balanced with equal start/end counts (every opened element is
closed exactly once, in LIFO order); and whenever a paint-carrying element
opens an implicit clip-wrapping `<g>`, the trace nests the named element
strictly inside the wrapper, so the wrapper's closing tag is emitted after
the inner named tag's closing tag. -/
theorem svgdevice_element_nesting :
    (∀ (w h : Int) (cmds : List DrawCmd),
       TraceBalanced (runDevice w h cmds) ∧
       countStarts (runDevice w h cmds) = countEnds (runDevice w h cmds)) ∧
    (∀ (name : String) (mc : MxCp) (paint : SkPaint)
       (extrasF : ResourceBucket → Trace × ResourceBucket)
       (b : ResourceBucket),
       (∀ b', Complete (extrasF b').1) →
       (addResources mc paint b).1.fClip ≠ "" →
       ∃ pre mid,
         (paintedElementF name mc paint extrasF b).1 =
           pre ++ Event.start "g" ::
             Event.attrS "clip-path" (addResources mc paint b).1.fClip ::
             Event.start name :: (mid ++ [Event.endElem, Event.endElem]) ∧
         Complete mid) := by
  constructor
  · intro w h cmds
    have hc := complete_runDevice w h cmds
    exact ⟨hc.traceBalanced, hc.traceBalanced.counts⟩
  · intro name mc paint extrasF b hex hclip
    refine ⟨(addResources mc paint b).2.1,
      addPaint paint (addResources mc paint b).1 ++
        transformAttr mc.fMatrix ++
        (extrasF (addResources mc paint b).2.2).1, ?_, ?_⟩
    · show (paintedElementF name mc paint extrasF b).1 = _
      unfold paintedElementF
      dsimp only
      rw [if_pos hclip]
      simp [elemT, List.append_assoc]
    · exact ((complete_addPaint _ _).append
        (complete_transformAttr _)).append (hex _)

/-- A concrete non-wide-open clip stack (its `asPath` collaborator result is
the empty path; annotation bounds pass the rect through). -/
def clipStackW : SkClipStack := ⟨false, ⟨[], .winding, none⟩, fun r _ => r⟩

def mcW : MxCp := ⟨SkMatrix.identity, clipStackW⟩

/-- A plain opaque fill paint. -/
def paintW : SkPaint :=
  { style := .fill, color := ⟨255, 10, 20, 30⟩, strokeWidth := 1,
    strokeCap := .butt, strokeJoin := .miter, strokeMiter := 4,
    shader := none, colorFilter := none, textSize := 12, textAlign := .left,
    typeface := ⟨.upright, 400, 5, []⟩ }

/-- Witness for C1 at a concrete draw sequence with an active clip. -/
theorem svgdevice_element_nesting_witness :
    (TraceBalanced (runDevice 4 4 [DrawCmd.cRect mcW ⟨0, 0, 2, 2⟩ paintW]) ∧
     countStarts (runDevice 4 4 [DrawCmd.cRect mcW ⟨0, 0, 2, 2⟩ paintW]) =
       countEnds (runDevice 4 4 [DrawCmd.cRect mcW ⟨0, 0, 2, 2⟩ paintW])) ∧
    (∃ pre mid,
       (paintedElementF "rect" mcW paintW (fun b => ([], b))
         ResourceBucket.init).1 =
         pre ++ Event.start "g" ::
           Event.attrS "clip-path"
             (addResources mcW paintW ResourceBucket.init).1.fClip ::
           Event.start "rect" :: (mid ++ [Event.endElem, Event.endElem]) ∧
       Complete mid) :=
  ⟨svgdevice_element_nesting.1 4 4 [DrawCmd.cRect mcW ⟨0, 0, 2, 2⟩ paintW],
   svgdevice_element_nesting.2 "rect" mcW paintW (fun b => ([], b))
     ResourceBucket.init (fun _ => Complete.nil) (by decide)⟩

/-! ## Resource id issuing (C3) -/

theorem alloc_fst (b : ResourceBucket) (c : ResCat) :
    (b.alloc c).1 = catStem c ++ "_" ++ fmtS32 (b.catCount c) := by
  cases c <;> rfl

theorem alloc_snd_catCount (b : ResourceBucket) (c c' : ResCat) :
    (b.alloc c).2.catCount c' =
      (if c' = c then (b.catCount c' + 1) % 2 ^ 32 else b.catCount c') := by
  cases c <;> cases c' <;> simp [ResourceBucket.alloc, ResourceBucket.catCount,
    ResourceBucket.addLinearGradient, ResourceBucket.addClip,
    ResourceBucket.addPath, ResourceBucket.addImage,
    ResourceBucket.addPattern, ResourceBucket.addColorFilter]

theorem init_catCount (c : ResCat) : ResourceBucket.init.catCount c = 0 := by
  cases c <;> rfl

theorem init_catCount_lt (c : ResCat) :
    ResourceBucket.init.catCount c < 2 ^ 32 := by
  rw [init_catCount]
  norm_num

theorem alloc_preserves_lt (b : ResourceBucket) (c : ResCat)
    (hb : ∀ c', b.catCount c' < 2 ^ 32) :
    ∀ c', (b.alloc c).2.catCount c' < 2 ^ 32 := by
  intro c'
  rw [alloc_snd_catCount]
  split
  · exact Nat.mod_lt _ (by norm_num)
  · exact hb c'

theorem runAlloc_getD (rs : List ResCat) :
    ∀ (b : ResourceBucket) (i : Nat), i < rs.length →
      (∀ c, b.catCount c < 2 ^ 32) →
      (runAlloc b rs).getD i "" =
        catStem (rs.getD i .clip) ++ "_" ++
          fmtS32 ((b.catCount (rs.getD i .clip) +
            (rs.take i).count (rs.getD i .clip)) % 2 ^ 32) := by
  induction rs with
  | nil => intro b i h _; simp at h
  | cons c cs ih =>
      intro b i h hb
      cases i with
      | zero =>
          simp [runAlloc, alloc_fst]
          have hlt := hb c
          have hmod : b.catCount c % 4294967296 = b.catCount c := by omega
          rw [hmod]
      | succ i =>
          have hlen : i < cs.length := by simpa using h
          have hb' := alloc_preserves_lt b c hb
          have step := ih (b.alloc c).2 i hlen hb'
          have hget : (runAlloc b (c :: cs)).getD (i + 1) "" =
              (runAlloc (b.alloc c).2 cs).getD i "" := by
            simp [runAlloc]
          have hcount : ((c :: cs).take (i + 1)).count (cs.getD i .clip) =
              (cs.take i).count (cs.getD i .clip) +
                (if cs.getD i .clip = c then 1 else 0) := by
            show (c :: cs.take i).count (cs.getD i .clip) = _
            rw [List.count_cons]
            split_ifs <;> first | rfl | omega | simp_all
          have hgd : (c :: cs).getD (i + 1) ResCat.clip = cs.getD i .clip := rfl
          rw [hget, step, alloc_snd_catCount, hgd, hcount]
          congr 2
          by_cases hx : cs.getD i ResCat.clip = c
          · rw [if_pos hx, if_pos hx]
            omega
          · rw [if_neg hx, if_neg hx]
            omega

theorem replicate_clip_getD (n i : Nat) (_h : i < n) :
    (List.replicate n ResCat.clip).getD i ResCat.clip = ResCat.clip := by
  cases hq : (List.replicate n ResCat.clip)[i]? with
  | none => simp [List.getD, hq]
  | some c =>
      have := List.getElem?_mem hq
      rw [List.eq_of_mem_replicate this] at hq
      simp [List.getD, hq]

/-- C3 counterexample: the `uint32_t` clip counter wraps, so after `2^32`
clip allocations the id `clip_0` is reissued (allocations 0 and `2^32` of the
same category collide), and allocation `2^31` renders through `%d` as the
negative `clip_-2147483648` rather than the claimed `"clip_{n}"` with
`n = 2^31`. -/
theorem resourcebucket_claim_counterexample :
    (runAlloc ResourceBucket.init
        (List.replicate (2 ^ 32 + 1) ResCat.clip)).getD 0 "" = "clip_0" ∧
    (runAlloc ResourceBucket.init
        (List.replicate (2 ^ 32 + 1) ResCat.clip)).getD (2 ^ 32) "" =
      "clip_0" ∧
    (0 : Nat) ≠ 2 ^ 32 ∧
    (runAlloc ResourceBucket.init
        (List.replicate (2 ^ 32 + 1) ResCat.clip)).getD (2 ^ 31) "" =
      "clip_-2147483648" ∧
    "clip_-2147483648" ≠ "clip_" ++ toString (2 ^ 31 : Nat) := by
  have hlen : ∀ i : Nat, i < 2 ^ 32 + 1 →
      i < (List.replicate (2 ^ 32 + 1) ResCat.clip).length := by
    intro i hi
    rw [List.length_replicate]
    exact hi
  have hcnt : ∀ i : Nat, i ≤ 2 ^ 32 →
      ((List.replicate (2 ^ 32 + 1) ResCat.clip).take i).count ResCat.clip
        = i := by
    intro i hi
    rw [List.take_replicate, List.count_replicate_self]
    omega
  have key : ∀ i : Nat, i ≤ 2 ^ 32 →
      (runAlloc ResourceBucket.init
        (List.replicate (2 ^ 32 + 1) ResCat.clip)).getD i "" =
        "clip_" ++ fmtS32 (i % 2 ^ 32) := by
    intro i hi
    rw [runAlloc_getD _ ResourceBucket.init i (hlen i (by omega))
      init_catCount_lt,
      replicate_clip_getD _ _ (by omega), hcnt i hi, init_catCount]
    rw [Nat.zero_add]
    rfl
  refine ⟨?_, ?_, by norm_num, ?_, by decide⟩
  · rw [key 0 (by norm_num)]
    decide
  · rw [key (2 ^ 32) (by norm_num)]
    decide
  · rw [key (2 ^ 31) (by norm_num)]
    decide

/-- C3 (amended): each category independently issues `"{stem}_{d}"` where `d`
is the `%d` (32-bit signed) rendering of a `uint32_t` counter that holds the
number of earlier allocations of that category modulo `2^32` — so within the
first `2^31` allocations of a category the id is exactly `"{stem}_{n}"` with
`n` the count of earlier same-category allocations (first clip is `clip_0`,
second `clip_1`, regardless of interleaving), the per-category count is
strictly increasing across same-category allocations, and the sequence is
deterministic given the call order; beyond `2^31` the rendering turns
negative and at `2^32` the counter wraps and ids repeat. -/
theorem resourcebucket_id_sequence :
    (∀ (rs : List ResCat) (i : Nat), i < rs.length →
       (runAlloc ResourceBucket.init rs).getD i "" =
         catStem (rs.getD i .clip) ++ "_" ++
           fmtS32 ((rs.take i).count (rs.getD i .clip) % 2 ^ 32)) ∧
    (∀ (rs : List ResCat) (i : Nat), i < rs.length →
       (rs.take i).count (rs.getD i .clip) < 2 ^ 31 →
       (runAlloc ResourceBucket.init rs).getD i "" =
         catStem (rs.getD i .clip) ++ "_" ++
           toString ((rs.take i).count (rs.getD i .clip))) ∧
    (∀ (rs : List ResCat) (i j : Nat), i < j → j < rs.length →
       rs.getD i .clip = rs.getD j .clip →
       (rs.take i).count (rs.getD i .clip) <
         (rs.take j).count (rs.getD j .clip)) ∧
    runAlloc ResourceBucket.init
        [.clip, .gradient, .clip, .pattern, .clip, .gradient] =
      ["clip_0", "gradient_0", "clip_1", "pattern_0", "clip_2",
       "gradient_1"] := by
  have hmain : ∀ (rs : List ResCat) (i : Nat), i < rs.length →
      (runAlloc ResourceBucket.init rs).getD i "" =
        catStem (rs.getD i .clip) ++ "_" ++
          fmtS32 ((rs.take i).count (rs.getD i .clip) % 2 ^ 32) := by
    intro rs i h
    rw [runAlloc_getD rs ResourceBucket.init i h init_catCount_lt,
      init_catCount]
    simp
  refine ⟨hmain, ?_, ?_, by decide⟩
  · intro rs i h hsmall
    rw [hmain rs i h]
    congr 1
    rw [Nat.mod_eq_of_lt (by omega)]
    unfold fmtS32
    rw [if_pos hsmall]
  · intro rs i j hij hj hsame
    have hi : i < rs.length := lt_trans hij hj
    have hgetd : rs.getD i ResCat.clip = rs[i] := by
      simp [List.getD_eq_getElem?_getD, List.getElem?_eq_getElem hi]
    have htake : rs.take (i + 1) = rs.take i ++ [rs.getD i ResCat.clip] := by
      rw [List.take_succ, List.getElem?_eq_getElem hi, hgetd]
      rfl
    have hsub : List.Sublist (rs.take (i + 1)) (rs.take j) := by
      have h2 : rs.take (i + 1) = (rs.take j).take (i + 1) := by
        rw [List.take_take]
        congr 1
        omega
      rw [h2]
      exact List.take_sublist _ _
    have hcount1 : (rs.take (i + 1)).count (rs.getD i ResCat.clip) =
        (rs.take i).count (rs.getD i ResCat.clip) + 1 := by
      rw [htake]
      simp
    have hle := hsub.count_le (rs.getD i ResCat.clip)
    rw [← hsame]
    omega

/-- Witness for C3 at a concrete interleaved allocation sequence within the
wrap-free regime. -/
theorem resourcebucket_id_sequence_witness :
    (runAlloc ResourceBucket.init [.clip, .gradient, .clip]).getD 2 "" =
      catStem (([ResCat.clip, .gradient, .clip]).getD 2 .clip) ++ "_" ++
        toString ((([ResCat.clip, .gradient, .clip]).take 2).count
          (([ResCat.clip, .gradient, .clip]).getD 2 .clip)) ∧
    (([ResCat.clip, .gradient, .clip]).take 0).count
        (([ResCat.clip, .gradient, .clip]).getD 0 .clip) <
      (([ResCat.clip, .gradient, .clip]).take 2).count
        (([ResCat.clip, .gradient, .clip]).getD 2 .clip) :=
  ⟨resourcebucket_id_sequence.2.1 [.clip, .gradient, .clip] 2 (by decide)
     (by decide),
   resourcebucket_id_sequence.2.2.1 [.clip, .gradient, .clip] 0 2 (by decide)
     (by decide) (by decide)⟩

/-! ## Whitespace discipline of the text builder (C4) -/

theorem charOfNat_toNat_ne (c n : Nat) (h1 : c ≠ n) (h2 : (0 : Nat) ≠ n) :
    (Char.ofNat c).toNat ≠ n := by
  unfold Char.ofNat
  split
  · intro hq
    simp only [Char.ofNatAux, Char.toNat, UInt32.toNat,
      BitVec.toNat_ofNatLt] at hq
    exact h1 hq
  · intro hq
    simp only [Char.toNat, UInt32.toNat] at hq
    exact h2 (by simpa using hq)

/-- The character is the space or tab the builder's collapse treats as
whitespace. -/
def isWSCh (ch : Char) : Bool := ch.toNat = 32 || ch.toNat = 9

/-- No two adjacent characters are both whitespace. -/
def textOk : List Char → Bool
  | a :: b :: rest => (!(isWSCh a && isWSCh b)) && textOk (b :: rest)
  | _ => true

/-- The last character is whitespace (false for the empty list). -/
def endsWS : List Char → Bool
  | [] => false
  | [a] => isWSCh a
  | _ :: b :: rest => endsWS (b :: rest)

/-- The first character, if any, is not whitespace. -/
def headOk (t : List Char) : Bool :=
  match t.head? with
  | some ch => !isWSCh ch
  | none => true

theorem endsWS_cons_cons (a b : Char) (rest : List Char) :
    endsWS (a :: b :: rest) = endsWS (b :: rest) := rfl

theorem endsWS_append_nonempty (t : List Char) :
    ∀ s : List Char, s ≠ [] → endsWS (t ++ s) = endsWS s := by
  induction t with
  | nil => intro s _; rfl
  | cons a t ih =>
      intro s hs
      cases t with
      | nil =>
          cases s with
          | nil => exact absurd rfl hs
          | cons b s' => rfl
      | cons b t' =>
          have : endsWS ((a :: b :: t') ++ s) = endsWS ((b :: t') ++ s) := rfl
          rw [this, ih s hs]

theorem textOk_append (t : List Char) :
    ∀ s : List Char, textOk t = true → textOk s = true →
      (endsWS t = false ∨ headOk s = true) → textOk (t ++ s) = true := by
  induction t with
  | nil => intro s _ hs _; exact hs
  | cons a t ih =>
      intro s ht hs hj
      cases t with
      | nil =>
          cases s with
          | nil => rfl
          | cons b s' =>
              have hab : (isWSCh a && isWSCh b) = false := by
                rcases hj with hj | hj
                · simp only [endsWS] at hj
                  simp [hj]
                · simp only [headOk, List.head?] at hj
                  simp only [Bool.not_eq_true'] at hj
                  simp [hj]
              show ((!(isWSCh a && isWSCh b)) && textOk (b :: s')) = true
              rw [hab]
              simpa using hs
      | cons b t' =>
          have ht' : ((!(isWSCh a && isWSCh b)) && textOk (b :: t')) = true :=
            ht
          simp only [Bool.and_eq_true] at ht'
          have hj2 : endsWS (b :: t') = false ∨ headOk s = true := by
            rcases hj with hj | hj
            · left; rw [← endsWS_cons_cons a b t']; exact hj
            · right; exact hj
          have hrec := ih s ht'.2 hs hj2
          show ((!(isWSCh a && isWSCh b)) && textOk ((b :: t') ++ s)) = true
          rw [ht'.1, hrec]
          rfl

theorem headOk_append (t s : List Char) (ht : headOk t = true)
    (hs : headOk s = true) : headOk (t ++ s) = true := by
  cases t with
  | nil => exact hs
  | cons a t' => exact ht

/-- The builder invariant: the emitted text has no adjacent whitespace, never
begins with whitespace, and when the whitespace flag is down the text is
nonempty and does not end in whitespace. -/
def tbInv (st : TBState) : Prop :=
  textOk st.fText = true ∧ headOk st.fText = true ∧
  (st.fLastCharWasWhitespace = false →
    st.fText ≠ [] ∧ endsWS st.fText = false)

theorem advancePos_fText (offset : SkPoint) (spp : Nat) (d : Bool)
    (st : TBState) : (advancePos offset spp d st).fText = st.fText := by
  unfold advancePos
  dsimp only
  split
  · split <;> rfl
  · rfl

theorem headOk_append_left (t s : List Char) (ht : t ≠ []) :
    headOk (t ++ s) = headOk t := by
  cases t with
  | nil => exact absurd rfl ht
  | cons a t' => rfl

theorem tbInv_mk (st1 : TBState) (d w : Bool) (offset : SkPoint) (spp : Nat)
    (hok : textOk st1.fText = true) (hhead : headOk st1.fText = true)
    (hflag : w = false → st1.fText ≠ [] ∧ endsWS st1.fText = false) :
    tbInv { advancePos offset spp d st1 with fLastCharWasWhitespace := w } := by
  unfold tbInv
  simp only [advancePos_fText]
  exact ⟨hok, hhead, hflag⟩

theorem isWSCh_ofNat_false (c : Nat) (h32 : c ≠ 32) (h9 : c ≠ 9) :
    isWSCh (Char.ofNat c) = false := by
  have t32 := charOfNat_toNat_ne c 32 h32 (by decide)
  have t9 := charOfNat_toNat_ne c 9 h9 (by decide)
  simp [isWSCh, t32, t9]

theorem tbInv_step (offset : SkPoint) (spp : Nat) (st : TBState) (c : Nat)
    (h : tbInv st) : tbInv (appendUnichar offset spp st c) := by
  obtain ⟨hok, hhead, hflag⟩ := h
  unfold appendUnichar
  dsimp only
  by_cases h32 : c = 32 ∨ c = 9
  · rw [if_pos h32]
    by_cases hws : st.fLastCharWasWhitespace = true
    · rw [if_pos hws]
      exact tbInv_mk st true true offset spp hok hhead (by simp)
    · rw [if_neg hws]
      have hflag' := hflag (by simpa using hws)
      refine tbInv_mk _ false true offset spp ?_ ?_ (by simp)
      · exact textOk_append st.fText [Char.ofNat c] hok rfl (Or.inl hflag'.2)
      · rw [headOk_append_left st.fText _ hflag'.1]
        exact hhead
  · rw [if_neg h32]
    have hc32 : c ≠ 32 := fun hq => h32 (Or.inl hq)
    have hc9 : c ≠ 9 := fun hq => h32 (Or.inr hq)
    by_cases h0 : c = 0
    · rw [if_pos h0]
      exact tbInv_mk st true st.fLastCharWasWhitespace offset spp hok hhead
        (fun hw => hflag hw)
    · rw [if_neg h0]
      have entity : ∀ sEnt : String, textOk sEnt.data = true →
          headOk sEnt.data = true → sEnt.data ≠ [] →
          endsWS sEnt.data = false →
          tbInv { advancePos offset spp false
              { st with fText := st.fText ++ sEnt.data } with
                fLastCharWasWhitespace := false } := by
        intro sEnt hsOk hsHead hsNe hsEnds
        refine tbInv_mk _ false false offset spp ?_ ?_ ?_
        · exact textOk_append st.fText sEnt.data hok hsOk (Or.inr hsHead)
        · cases hte : st.fText with
          | nil => simpa [hte] using hsHead
          | cons a t' =>
              rw [← hte, headOk_append_left st.fText _ (by simp [hte])]
              exact hhead
        · intro _
          refine ⟨by simp [hsNe], ?_⟩
          rw [endsWS_append_nonempty st.fText sEnt.data hsNe]
          exact hsEnds
      by_cases h38 : c = 38
      · rw [if_pos h38]
        exact entity "&amp;" (by decide) (by decide) (by decide) (by decide)
      · rw [if_neg h38]
        by_cases h34 : c = 34
        · rw [if_pos h34]
          exact entity "&quot;" (by decide) (by decide) (by decide) (by decide)
        · rw [if_neg h34]
          by_cases h39 : c = 39
          · rw [if_pos h39]
            exact entity "&apos;" (by decide) (by decide) (by decide)
              (by decide)
          · rw [if_neg h39]
            by_cases h60 : c = 60
            · rw [if_pos h60]
              exact entity "&lt;" (by decide) (by decide) (by decide)
                (by decide)
            · rw [if_neg h60]
              by_cases h62 : c = 62
              · rw [if_pos h62]
                exact entity "&gt;" (by decide) (by decide) (by decide)
                  (by decide)
              · rw [if_neg h62]
                have hws : isWSCh (Char.ofNat c) = false :=
                  isWSCh_ofNat_false c hc32 hc9
                refine tbInv_mk _ false false offset spp ?_ ?_ ?_
                · refine textOk_append st.fText [Char.ofNat c] hok rfl
                    (Or.inr ?_)
                  simp [headOk, hws]
                · cases hte : st.fText with
                  | nil => simp [hte, headOk, hws]
                  | cons a t' =>
                      rw [← hte,
                        headOk_append_left st.fText _ (by simp [hte])]
                      exact hhead
                · intro _
                  refine ⟨by simp, ?_⟩
                  rw [endsWS_append_nonempty st.fText [Char.ofNat c]
                    (by simp)]
                  simpa [endsWS] using hws

theorem tbInv_run (offset : SkPoint) (spp : Nat) (cs : List Nat) :
    ∀ st : TBState, tbInv st → tbInv (tbRun offset spp st cs) := by
  induction cs with
  | nil => intro st h; exact h
  | cons c cs ih =>
      intro st h
      exact ih _ (tbInv_step offset spp st c h)

theorem tbInv_svgTextBuilder (cs : List Nat) (offset : SkPoint) (spp : Nat)
    (pos : List SkScalar) : tbInv (svgTextBuilder cs offset spp pos) := by
  have h0 : tbInv (tbInit pos) := by
    refine ⟨rfl, rfl, ?_⟩
    intro hq
    simp [tbInit] at hq
  have h1 := tbInv_run offset spp cs (tbInit pos) h0
  unfold svgTextBuilder
  dsimp only
  split <;> split <;> exact h1

/-- C4 counterexample: the builder does not strip trailing whitespace
(`" a "` yields `"a "`, not `"a"`), and a tab following a non-whitespace
character is emitted verbatim as a tab, not converted to a space
(`"a\\tb"` yields `"a\\tb"`, not `"a b"`). -/
theorem svgtext_claim_counterexample :
    (svgTextBuilder ((" a " : String).data.map Char.toNat) ⟨0, 0⟩ 0 []).fText ≠
      ("a" : String).data ∧
    (svgTextBuilder [97, 9, 98] ⟨0, 0⟩ 0 []).fText ≠
      ("a b" : String).data ∧
    (svgTextBuilder [97, 9, 98] ⟨0, 0⟩ 0 []).fText =
      [Char.ofNat 97, Char.ofNat 9, Char.ofNat 98] := by decide

/-- C4 (amended): the builder processes the text in one left-to-right pass
with the whitespace flag initialized true; a space or tab whose previous
emitted character was whitespace is discarded together with its position
entry; a space or tab following a non-whitespace character is emitted
verbatim (as that same single character); leading whitespace is stripped
entirely; a trailing whitespace run collapses to exactly one character but is
not stripped.  Consequently the output never begins with whitespace and never
holds two adjacent whitespace characters; `"a  b"` yields `"a b"` and
`" a "` yields `"a "`; a discarded leading space also drops its position
entry. -/
theorem svgtext_whitespace_collapse :
    (∀ (cs : List Nat) (offset : SkPoint) (spp : Nat) (pos : List SkScalar),
       textOk (svgTextBuilder cs offset spp pos).fText = true ∧
       headOk (svgTextBuilder cs offset spp pos).fText = true) ∧
    (svgTextBuilder (("a  b" : String).data.map Char.toNat) ⟨0, 0⟩ 0
        []).fText = ("a b" : String).data ∧
    (svgTextBuilder ((" a " : String).data.map Char.toNat) ⟨0, 0⟩ 0
        []).fText = ("a " : String).data ∧
    (svgTextBuilder [32, 97] ⟨0, 0⟩ 1 [5, 7]).fPosX = "7, " := by
  have hpos : (svgTextBuilder [32, 97] ⟨0, 0⟩ 1 [5, 7]).fPosX =
      "" ++ fmtScalar ((0 : ℚ) + 7) ++ ", " := rfl
  refine ⟨?_, by decide, by decide, by rw [hpos]; norm_num; rfl⟩
  intro cs offset spp pos
  have h := tbInv_svgTextBuilder cs offset spp pos
  exact ⟨h.1, h.2.1⟩

/-! ## The defs wrapper (C2) -/

theorem defs_notin_clip (mc : MxCp) (res : Resources) (b : ResourceBucket) :
    Event.start "defs" ∉ (addClipResources mc res b).2.1 := by
  unfold addClipResources
  dsimp only [ResourceBucket.addClip]
  intro hmem
  simp only [elemT, addRectAttributes, addPathAttributes, List.mem_cons,
    List.mem_append, List.mem_singleton] at hmem
  split_ifs at hmem <;> simp_all

theorem defs_notin_lgdef (info : GradientInfo) (shader : SkShader)
    (b : ResourceBucket) :
    Event.start "defs" ∉ (addLinearGradientDef info shader b).2.1 := by
  unfold addLinearGradientDef
  dsimp only [ResourceBucket.addLinearGradient]
  intro hmem
  simp only [elemT, List.mem_cons, List.mem_append, List.mem_singleton,
    List.mem_flatMap] at hmem
  split_ifs at hmem <;> simp_all

theorem defs_notin_shader (shader : SkShader) (res : Resources)
    (b : ResourceBucket) :
    Event.start "defs" ∉ (addShaderResources shader res b).2.1 := by
  unfold addShaderResources addGradientShaderResources addImageShaderResources
  rcases shader with ⟨kind, lm⟩
  cases kind <;> dsimp only
  case linearGradient info =>
    intro hmem
    have h2 := defs_notin_lgdef info ⟨.linearGradient info, lm⟩ b
    revert hmem h2
    rcases addLinearGradientDef info ⟨.linearGradient info, lm⟩ b with
      ⟨id, trace, b'⟩
    exact fun hmem h2 => h2 hmem
  case image info =>
    cases AsDataUri info.image <;> dsimp only
    · simp
    · dsimp only [ResourceBucket.addPattern, ResourceBucket.addImage]
      intro hmem
      simp only [elemT, List.mem_cons, List.mem_append,
        List.mem_singleton] at hmem
      simp_all
  all_goals simp

theorem defs_notin_cf (filterColor : SkColor) (res : Resources)
    (b : ResourceBucket) :
    Event.start "defs" ∉ (addColorFilterResources filterColor res b).2.1 := by
  unfold addColorFilterResources
  dsimp only [ResourceBucket.addColorFilter]
  intro hmem
  simp only [elemT, List.mem_cons, List.mem_append,
    List.mem_singleton] at hmem
  simp_all

theorem addResourcesCF_mem_defs (paint : SkPaint)
    (r1 : Resources × Trace × ResourceBucket) :
    (Event.start "defs" ∈ (addResourcesCF paint r1).2.1 ↔
      Event.start "defs" ∈ r1.2.1) := by
  unfold addResourcesCF
  cases paint.colorFilter with
  | none => exact Iff.rfl
  | some cf =>
      dsimp only
      cases cf.asColorMode with
      | none => exact Iff.rfl
      | some cm =>
          rcases cm with ⟨color, mode⟩
          dsimp only
          split
          · constructor
            · intro hmem
              rcases List.mem_append.mp hmem with h | h
              · exact h
              · exact absurd h (defs_notin_cf color r1.1 r1.2.2)
            · intro hmem
              exact List.mem_append.mpr (Or.inl hmem)
          · exact Iff.rfl

/-- C2 counterexample: a paint whose only resource trigger is a recognized
single-color source-in color filter gets no `<defs>` wrapper at all — its
`<filter>` definition is emitted bare. -/
def mcOpen : MxCp := ⟨SkMatrix.identity, ⟨true, ⟨[], .winding, none⟩,
  fun r _ => r⟩⟩

def paintCF : SkPaint :=
  { paintW with colorFilter := some ⟨some (⟨255, 1, 2, 3⟩, .srcIn)⟩ }

theorem svgdefs_claim_counterexample :
    Event.start "filter" ∈ (addResources mcOpen paintCF
      ResourceBucket.init).2.1 ∧
    Event.start "defs" ∉ (addResources mcOpen paintCF
      ResourceBucket.init).2.1 := by decide

/-- C2 (amended): for every draw call's paint resolution, a `<defs>` wrapper
element is emitted if and only if the clip is active or a shader is present;
a recognized single-color source-in color filter alone triggers no `<defs>`
wrapper — its `<filter>` definition is emitted outside any `<defs>` scope. -/
theorem svgdefs_wrapping (mc : MxCp) (paint : SkPaint) (b : ResourceBucket) :
    Event.start "defs" ∈ (addResources mc paint b).2.1 ↔
      (mc.fClipStack.isWideOpen = false ∨ paint.shader.isSome = true) := by
  rw [show addResources mc paint b =
    addResourcesCF paint (addResourcesDefs mc paint b) from rfl,
    addResourcesCF_mem_defs]
  unfold addResourcesDefs
  dsimp only
  split
  · rename_i hcond
    simp only [Bool.or_eq_true, decide_eq_true_eq] at hcond
    constructor
    · intro _
      rcases hcond with hc | hc
      · left
        simpa [Bool.not_eq_true] using hc
      · right; exact hc
    · intro _
      simp [elemT]
  · rename_i hcond
    simp only [Bool.or_eq_true, decide_eq_true_eq, not_or] at hcond
    constructor
    · intro hmem
      simp at hmem
    · intro hcase
      rcases hcase with hc | hc
      · exact absurd (by simp [hc] : ¬mc.fClipStack.isWideOpen = true)
          hcond.1
      · exact absurd hc (by simpa using hcond.2)

/-! ## Clip resource emission (C5) -/

/-- A non-wide-open clip whose path is a non-rectangular even-odd triangle. -/
def clipStackEO : SkClipStack :=
  ⟨false,
   ⟨[.move ⟨0, 0⟩, .line ⟨1, 0⟩, .line ⟨0, 1⟩], .evenOdd, none⟩,
   fun r _ => r⟩

def mcClipEO : MxCp := ⟨SkMatrix.identity, clipStackEO⟩

/-- C5 counterexample: the non-rectangular even-odd clip path's `<path>`
child carries a `clip-rule` attribute, not the claimed `fill-rule`
attribute. -/
theorem svgclip_claim_counterexample :
    Event.attrS "fill-rule" "evenodd" ∉
      (addClipResources mcClipEO (Resources.ofPaint paintW)
        ResourceBucket.init).2.1 ∧
    Event.attrS "clip-rule" "evenodd" ∈
      (addClipResources mcClipEO (Resources.ofPaint paintW)
        ResourceBucket.init).2.1 ∧
    Event.start "path" ∈
      (addClipResources mcClipEO (Resources.ofPaint paintW)
        ResourceBucket.init).2.1 := by decide

theorem start_notin_addRectAttributes (n : String) (rc : SkRect) :
    Event.start n ∉ addRectAttributes rc := by
  intro hmem
  unfold addRectAttributes at hmem
  split_ifs at hmem <;> simp_all

theorem start_notin_addPathAttributes (n : String) (p : SkPath) :
    Event.start n ∉ addPathAttributes p := by
  intro hmem
  simp [addPathAttributes] at hmem

/-- C5 (amended): for every non-wide-open clip, `addClipResources` emits a
`<clipPath id=clip_n>` definition whose single child is a `<rect>` when the
converted clip path is empty or exactly rectangular and a `<path>` otherwise;
the child carries a `clip-rule` (not `fill-rule`) attribute whose value is
"evenodd" exactly when the path's fill type is even-odd and "nonzero"
otherwise; and the clip resource is set to `url(#clip_n)`. -/
theorem svgclip_resources (mc : MxCp) (res : Resources) (b : ResourceBucket)
    (_hclip : mc.fClipStack.isWideOpen = false) :
    (addClipResources mc res b).1.fClip =
      "url(#clip_" ++ fmtS32 b.fClipCount ++ ")" ∧
    (Event.start "rect" ∈ (addClipResources mc res b).2.1 ↔
      (mc.fClipStack.asPath.isEmpty ||
        mc.fClipStack.asPath.isRectRes.isSome) = true) ∧
    (Event.start "path" ∈ (addClipResources mc res b).2.1 ↔
      (mc.fClipStack.asPath.isEmpty ||
        mc.fClipStack.asPath.isRectRes.isSome) = false) ∧
    Event.attrS "clip-rule"
        (if mc.fClipStack.asPath.fillType = .evenOdd then "evenodd"
         else "nonzero") ∈ (addClipResources mc res b).2.1 ∧
    (∀ v : String, Event.attrS "fill-rule" v ∉
      (addClipResources mc res b).2.1) := by
  unfold addClipResources
  dsimp only [ResourceBucket.addClip]
  refine ⟨by rw [← String.append_assoc]; rfl, ?_, ?_, ?_, ?_⟩
  · split
    · rename_i hcond
      simp [elemT, hcond]
    · rename_i hcond
      simp only [Bool.not_eq_true] at hcond
      simp [elemT, hcond, start_notin_addPathAttributes]
  · split
    · rename_i hcond
      simp [elemT, hcond, start_notin_addRectAttributes]
    · rename_i hcond
      simp only [Bool.not_eq_true] at hcond
      simp [elemT, hcond]
  · split
    · simp [elemT]
    · simp [elemT]
  · intro v hmem
    simp only [elemT, addRectAttributes, addPathAttributes, List.mem_cons,
      List.mem_append, List.mem_singleton] at hmem
    split_ifs at hmem <;> simp_all

/-- Witness for C5 at the concrete even-odd triangle clip. -/
theorem svgclip_resources_witness :
    (addClipResources mcClipEO (Resources.ofPaint paintW)
        ResourceBucket.init).1.fClip =
      "url(#clip_" ++ fmtS32 (ResourceBucket.init.fClipCount) ++ ")" ∧
    Event.attrS "clip-rule"
        (if mcClipEO.fClipStack.asPath.fillType = .evenOdd then "evenodd"
         else "nonzero") ∈
      (addClipResources mcClipEO (Resources.ofPaint paintW)
        ResourceBucket.init).2.1 :=
  ⟨(svgclip_resources mcClipEO (Resources.ofPaint paintW)
      ResourceBucket.init rfl).1,
   (svgclip_resources mcClipEO (Resources.ofPaint paintW)
      ResourceBucket.init rfl).2.2.2.1⟩

/-! ## Matrix classification (C6) -/

/-- C6: the transform string of a non-identity matrix follows the matrix
classification: a pure translation yields `translate(tx ty)`; a pure scale
yields `scale(sx sy)`; a matrix with a perspective component yields the empty
string (nothing); every other non-identity matrix yields the 6-parameter
`matrix(a b c d e f)` form ordered scaleX, skewY, skewX, scaleY, translateX,
translateY.  The device only invokes `svg_transform` behind an
`isIdentity` guard: the transform attribute segment is empty exactly on
identity matrices. -/
theorem svgtransform_classification :
    (∀ m : SkMatrix,
       m.persp0 = 0 → m.persp1 = 0 → m.persp2 = 1 →
       m.skewX = 0 → m.skewY = 0 → m.scaleX = 1 → m.scaleY = 1 →
       (m.transX ≠ 0 ∨ m.transY ≠ 0) →
       svg_transform m =
         "translate(" ++ fmtScalar m.transX ++ " " ++ fmtScalar m.transY ++
           ")") ∧
    (∀ m : SkMatrix,
       m.persp0 = 0 → m.persp1 = 0 → m.persp2 = 1 →
       m.skewX = 0 → m.skewY = 0 → m.transX = 0 → m.transY = 0 →
       ¬(m.scaleX = 1 ∧ m.scaleY = 1) →
       svg_transform m =
         "scale(" ++ fmtScalar m.scaleX ++ " " ++ fmtScalar m.scaleY ++ ")") ∧
    (∀ m : SkMatrix,
       (m.persp0 ≠ 0 ∨ m.persp1 ≠ 0 ∨ m.persp2 ≠ 1) →
       svg_transform m = "") ∧
    (∀ m : SkMatrix,
       m.persp0 = 0 → m.persp1 = 0 → m.persp2 = 1 →
       ¬(m.skewX = 0 ∧ m.skewY = 0 ∧ m.scaleX = 1 ∧ m.scaleY = 1) →
       ¬(m.skewX = 0 ∧ m.skewY = 0 ∧ m.transX = 0 ∧ m.transY = 0) →
       svg_transform m =
         "matrix(" ++ fmtScalar m.scaleX ++ " " ++ fmtScalar m.skewY ++ " " ++
           fmtScalar m.skewX ++ " " ++ fmtScalar m.scaleY ++ " " ++
           fmtScalar m.transX ++ " " ++ fmtScalar m.transY ++ ")") ∧
    (∀ m : SkMatrix, transformAttr m =
       if m.isIdentity then []
       else [Event.attrS "transform" (svg_transform m)]) := by
  refine ⟨?_, ?_, ?_, ?_, ?_⟩
  · intro m hp0 hp1 hp2 hsx hsy hscx hscy htr
    unfold svg_transform SkMatrix.getTypeClass
    rw [if_neg (by simp [hp0, hp1, hp2]),
      if_pos ⟨hsx, hsy, hscx, hscy⟩, if_pos htr]
  · intro m hp0 hp1 hp2 hsx hsy htx hty hsc
    unfold svg_transform SkMatrix.getTypeClass
    rw [if_neg (by simp [hp0, hp1, hp2]),
      if_neg (by simp [hsx, hsy]; intro h1 h2; exact hsc ⟨h1, h2⟩),
      if_pos ⟨hsx, hsy, htx, hty⟩]
  · intro m hp
    unfold svg_transform SkMatrix.getTypeClass
    rw [if_pos hp]
  · intro m hp0 hp1 hp2 hnt hns
    unfold svg_transform SkMatrix.getTypeClass
    rw [if_neg (by simp [hp0, hp1, hp2]), if_neg hnt, if_neg hns]
  · intro m
    unfold transformAttr
    by_cases hid : m.isIdentity
    · simp [hid]
    · simp [hid]

/-- Witness for C6 at concrete translate / scale / perspective / affine
matrices. -/
theorem svgtransform_classification_witness :
    svg_transform ⟨1, 0, 3, 0, 1, 4, 0, 0, 1⟩ =
      "translate(" ++ fmtScalar (3 : ℚ) ++ " " ++ fmtScalar (4 : ℚ) ++
        ")" ∧
    svg_transform ⟨2, 0, 0, 0, 5, 0, 0, 0, 1⟩ =
      "scale(" ++ fmtScalar (2 : ℚ) ++ " " ++ fmtScalar (5 : ℚ) ++ ")" ∧
    svg_transform ⟨1, 0, 0, 0, 1, 0, 1, 0, 1⟩ = "" ∧
    svg_transform ⟨1, 2, 3, 4, 5, 6, 0, 0, 1⟩ =
      "matrix(" ++ fmtScalar (1 : ℚ) ++ " " ++ fmtScalar (4 : ℚ) ++ " " ++
        fmtScalar (2 : ℚ) ++ " " ++ fmtScalar (5 : ℚ) ++ " " ++
        fmtScalar (3 : ℚ) ++ " " ++ fmtScalar (6 : ℚ) ++ ")" :=
  ⟨svgtransform_classification.1 ⟨1, 0, 3, 0, 1, 4, 0, 0, 1⟩ rfl rfl rfl rfl
     rfl rfl rfl (by norm_num),
   svgtransform_classification.2.1 ⟨2, 0, 0, 0, 5, 0, 0, 0, 1⟩ rfl rfl rfl
     rfl rfl rfl rfl (by norm_num),
   svgtransform_classification.2.2.1 ⟨1, 0, 0, 0, 1, 0, 1, 0, 1⟩
     (by norm_num),
   svgtransform_classification.2.2.2.1 ⟨1, 2, 3, 4, 5, 6, 0, 0, 1⟩ rfl rfl
     rfl (by norm_num) (by norm_num)⟩

/-! ## Image encode failure (C7) -/

/-- C7: when encoding yields no bytes, the encode step reports failure and
the caller emits no dependent element at all: `drawBitmapCommon` emits an
empty trace (no `<image>`/`<use>`, no id allocated), `AsDataUri` returns
nothing, and an image shader whose encode fails adds no `<pattern>` and
leaves the resources untouched. -/
theorem svgimage_encode_failure :
    (∀ (mc : MxCp) (bm : SkBitmap) (paint : SkPaint) (b : ResourceBucket),
       bm.encodePng80 = none → drawBitmapCommon mc bm paint b = ([], b)) ∧
    (∀ img : SkImage, img.encodeToData = none → AsDataUri img = none) ∧
    (∀ (info : ImageShaderInfo) (res : Resources) (b : ResourceBucket),
       info.image.encodeToData = none →
       addImageShaderResources info res b = (res, [], b)) := by
  refine ⟨?_, ?_, ?_⟩
  · intro mc bm paint b henc
    unfold drawBitmapCommon
    rw [henc]
  · intro img henc
    unfold AsDataUri
    rw [henc]
  · intro info res b henc
    unfold addImageShaderResources
    have : AsDataUri info.image = none := by
      unfold AsDataUri
      rw [henc]
    rw [this]

/-- Witness for C7 at a concrete bitmap and image whose encodes fail. -/
theorem svgimage_encode_failure_witness :
    drawBitmapCommon mcOpen ⟨3, 2, none⟩ paintW ResourceBucket.init =
      ([], ResourceBucket.init) ∧
    AsDataUri ⟨3, 2, none, []⟩ = none ∧
    addImageShaderResources ⟨⟨3, 2, none, []⟩, .repeatT, .clamp⟩
        (Resources.ofPaint paintW) ResourceBucket.init =
      (Resources.ofPaint paintW, [], ResourceBucket.init) :=
  ⟨svgimage_encode_failure.1 mcOpen ⟨3, 2, none⟩ paintW ResourceBucket.init
     rfl,
   svgimage_encode_failure.2.1 ⟨3, 2, none, []⟩ rfl,
   svgimage_encode_failure.2.2 ⟨⟨3, 2, none, []⟩, .repeatT, .clamp⟩
     (Resources.ofPaint paintW) ResourceBucket.init rfl⟩

/-! ## Plain-paint resource resolution helpers -/

theorem start_notin_addPaint (n : String) (paint : SkPaint)
    (res : Resources) : Event.start n ∉ addPaint paint res := by
  intro hmem
  unfold addPaint at hmem
  dsimp only at hmem
  rcases hcap : svg_cap paint.strokeCap with _ | cap <;>
    rcases hjoin : svg_join paint.strokeJoin with _ | join <;>
    rw [hcap, hjoin] at hmem <;>
    dsimp only at hmem <;>
    simp only [List.mem_append, List.mem_cons, List.mem_singleton] at hmem <;>
    split_ifs at hmem <;> simp_all

theorem start_notin_transformAttr (n : String) (m : SkMatrix) :
    Event.start n ∉ transformAttr m := by
  intro hmem
  unfold transformAttr at hmem
  split_ifs at hmem <;> simp_all

/-- With a wide-open clip, no shader and no color filter, resource resolution
emits nothing and returns the literal-color bundle unchanged. -/
theorem addResources_plain (mc : MxCp) (paint : SkPaint) (b : ResourceBucket)
    (hcl : mc.fClipStack.isWideOpen = true) (hsh : paint.shader = none)
    (hcf : paint.colorFilter = none) :
    addResources mc paint b = (Resources.ofPaint paint, [], b) := by
  unfold addResources addResourcesCF addResourcesDefs
  rw [hcf]
  dsimp only
  rw [if_neg (by simp [hcl, hsh])]

/-- Under the same plain-paint conditions a painted element is exactly one
`elemT` scope. -/
theorem paintedElement_plain (name : String) (mc : MxCp) (paint : SkPaint)
    (extras : Trace) (b : ResourceBucket)
    (hcl : mc.fClipStack.isWideOpen = true) (hsh : paint.shader = none)
    (hcf : paint.colorFilter = none) :
    paintedElement name mc paint extras b =
      (elemT name (addPaint paint (Resources.ofPaint paint) ++
        transformAttr mc.fMatrix ++ extras), b) := by
  unfold paintedElement paintedElementF
  rw [addResources_plain mc paint b hcl hsh hcf]
  dsimp only
  simp [Resources.ofPaint]

/-! ## Polygon point mode (C8) -/

/-- The verb stream the polygon branch constructs:
`addPoly(pts, count, close := false)` (a `moveTo` to the first point and a
`lineTo` per remaining point, no close verb) followed by the extra
`moveTo(pts[0])`. -/
def polygonVerbs (p0 : SkPoint) (rest : List SkPoint) : List PathVerb :=
  PathVerb.move p0 :: rest.map PathVerb.line ++ [PathVerb.move p0]

/-- Written from the claim's words, for comparison: a single *closed* polygon
through the points would carry a close verb (`moveTo p0, lineTo .., close`). -/
def closedPolygonVerbs (p0 : SkPoint) (rest : List SkPoint) : List PathVerb :=
  PathVerb.move p0 :: rest.map PathVerb.line ++ [PathVerb.close]

/-- C8 counterexample: at three concrete points the emitted path holds the
open `addPoly(.., false)` verbs plus a trailing move — there is no close verb,
so the geometry is not the closed polygon the claim states. -/
theorem svgpolygon_claim_counterexample :
    Event.attrS "d" (toSVGString (polygonVerbs ⟨0, 0⟩ [⟨1, 0⟩, ⟨0, 1⟩])) ∈
      (drawPoints mcOpen .polygon [⟨0, 0⟩, ⟨1, 0⟩, ⟨0, 1⟩] paintW
        ResourceBucket.init).1 ∧
    PathVerb.close ∉ polygonVerbs ⟨0, 0⟩ [⟨1, 0⟩, ⟨0, 1⟩] ∧
    toSVGString (polygonVerbs ⟨0, 0⟩ [⟨1, 0⟩, ⟨0, 1⟩]) ≠
      toSVGString (closedPolygonVerbs ⟨0, 0⟩ [⟨1, 0⟩, ⟨0, 1⟩]) := by decide

/-- C8 (amended): polygon point mode with at least two points emits exactly
one `<path>` element whose geometry is the open polyline through the points
followed by a `moveTo` back to the first point (no close verb — the shape is
only implicitly closed by filling); with fewer than two points nothing is
emitted. -/
theorem svgpolygon_draw :
    (∀ (mc : MxCp) (paint : SkPaint) (b : ResourceBucket) (p0 p1 : SkPoint)
       (rest : List SkPoint),
       drawPoints mc .polygon (p0 :: p1 :: rest) paint b =
         paintedElement "path" mc paint
           (addPathAttributes
             ⟨polygonVerbs p0 (p1 :: rest), .winding, none⟩) b ∧
       PathVerb.close ∉ polygonVerbs p0 (p1 :: rest)) ∧
    (∀ (mc : MxCp) (paint : SkPaint) (b : ResourceBucket)
       (pts : List SkPoint), pts.length < 2 →
       drawPoints mc .polygon pts paint b = ([], b)) ∧
    (∀ (mc : MxCp) (paint : SkPaint) (b : ResourceBucket) (p0 p1 : SkPoint)
       (rest : List SkPoint),
       mc.fClipStack.isWideOpen = true → paint.shader = none →
       paint.colorFilter = none →
       List.count (Event.start "path")
         (drawPoints mc .polygon (p0 :: p1 :: rest) paint b).1 = 1) := by
  refine ⟨?_, ?_, ?_⟩
  · intro mc paint b p0 p1 rest
    constructor
    · rfl
    · intro hmem
      simp [polygonVerbs, List.mem_append, List.mem_map] at hmem
  · intro mc paint b pts hlen
    match pts with
    | [] => rfl
    | [p] => rfl
    | p0 :: p1 :: rest => simp at hlen; omega
  · intro mc paint b p0 p1 rest hcl hsh hcf
    have heq : drawPoints mc .polygon (p0 :: p1 :: rest) paint b =
        paintedElement "path" mc paint
          (addPathAttributes ⟨polygonVerbs p0 (p1 :: rest), .winding, none⟩)
          b := rfl
    rw [heq, paintedElement_plain _ _ _ _ _ hcl hsh hcf]
    have hnotin : Event.start "path" ∉
        addPaint paint (Resources.ofPaint paint) ++
          transformAttr mc.fMatrix ++
          addPathAttributes
            ⟨polygonVerbs p0 (p1 :: rest), .winding, none⟩ := by
      intro hmem
      rcases List.mem_append.mp hmem with hmem2 | hmem2
      · rcases List.mem_append.mp hmem2 with hmem3 | hmem3
        · exact start_notin_addPaint _ _ _ hmem3
        · exact start_notin_transformAttr _ _ hmem3
      · exact start_notin_addPathAttributes _ _ hmem2
    simp [elemT, List.count_cons, List.count_append,
      List.count_eq_zero.mpr hnotin]
    exact ⟨List.count_eq_zero.mpr (start_notin_addPaint "path" paint
        (Resources.ofPaint paint)),
      List.count_eq_zero.mpr (start_notin_transformAttr "path" mc.fMatrix),
      List.count_eq_zero.mpr (start_notin_addPathAttributes "path" _)⟩

/-- Witness for C8 at concrete points and a plain paint. -/
theorem svgpolygon_draw_witness :
    drawPoints mcOpen .polygon [⟨0, 0⟩, ⟨1, 0⟩, ⟨0, 1⟩] paintW
        ResourceBucket.init =
      paintedElement "path" mcOpen paintW
        (addPathAttributes
          ⟨polygonVerbs ⟨0, 0⟩ [⟨1, 0⟩, ⟨0, 1⟩], .winding, none⟩)
        ResourceBucket.init ∧
    drawPoints mcOpen .polygon [⟨5, 5⟩] paintW ResourceBucket.init =
      ([], ResourceBucket.init) ∧
    List.count (Event.start "path")
      (drawPoints mcOpen .polygon [⟨0, 0⟩, ⟨1, 0⟩, ⟨0, 1⟩] paintW
        ResourceBucket.init).1 = 1 :=
  ⟨(svgpolygon_draw.1 mcOpen paintW ResourceBucket.init ⟨0, 0⟩ ⟨1, 0⟩
      [⟨0, 1⟩]).1,
   svgpolygon_draw.2.1 mcOpen paintW ResourceBucket.init [⟨5, 5⟩]
     (by decide),
   svgpolygon_draw.2.2 mcOpen paintW ResourceBucket.init ⟨0, 0⟩ ⟨1, 0⟩
     [⟨0, 1⟩] rfl rfl rfl⟩

/-! ## Line-segment point mode (C9) -/

theorem linesPairs_length : ∀ pts : List SkPoint,
    (linesPairs pts).length = pts.length / 2
  | [] => rfl
  | [_] => by simp [linesPairs]
  | p0 :: p1 :: rest => by
      have h := linesPairs_length rest
      show (linesPairs rest).length + 1 = (rest.length + 2) / 2
      rw [h]
      omega

/-- C9: the lines-mode loop bound is `count - 1` computed on a `size_t`.  For
`count = 0` it wraps to `2^64 - 1` and the loop's very first iteration reads
`pts[0]` and `pts[1]` past the end of the empty array — the claim's bounds
safety fails at zero points, by a `size_t` underflow slip.  For every
`1 ≤ count < 2^64` the claim's description holds: the bound is `count - 1`,
all accesses stay in bounds, and the pairs consumed are the
`floor(count / 2)` consecutive disjoint pairs (odd trailing point ignored),
one emitted `<path>` element per pair. -/
theorem svgpoints_lines_bounds :
    linesLoopBound 0 = 2 ^ 64 - 1 ∧
    linesOutOfBounds 0 ∧
    (∀ count : Nat, 1 ≤ count → count < 2 ^ 64 →
       linesLoopBound count = count - 1 ∧ ¬linesOutOfBounds count) ∧
    (∀ pts : List SkPoint, (linesPairs pts).length = pts.length / 2) ∧
    (∀ (mc : MxCp) (paint : SkPaint) (b : ResourceBucket)
       (pts : List SkPoint),
       mc.fClipStack.isWideOpen = true → paint.shader = none →
       paint.colorFilter = none →
       List.count (Event.start "path")
         (drawPoints mc .lines pts paint b).1 = pts.length / 2) := by
  refine ⟨?_, ?_, ?_, linesPairs_length, ?_⟩
  · unfold linesLoopBound
    omega
  · refine ⟨0, ?_, rfl, by omega⟩
    unfold linesLoopBound
    omega
  · intro count h1 h2
    constructor
    · unfold linesLoopBound
      omega
    · rintro ⟨i, hi1, _, hi3⟩
      unfold linesLoopBound at hi1
      omega
  · intro mc paint b pts hcl hsh hcf
    have hfold : ∀ (prs : List (SkPoint × SkPoint))
        (acc : Trace × ResourceBucket),
        List.count (Event.start "path")
          ((List.foldl (fun (acc : Trace × ResourceBucket)
            (pr : SkPoint × SkPoint) =>
              let path : SkPath :=
                ⟨[PathVerb.move pr.1, PathVerb.line pr.2], .winding, none⟩
              let r := paintedElement "path" mc paint
                (addPathAttributes path) acc.2
              (acc.1 ++ r.1, r.2)) acc prs)).1 =
          List.count (Event.start "path") acc.1 + prs.length := by
      intro prs
      induction prs with
      | nil => intro acc; rfl
      | cons pr prs ih =>
          intro acc
          rw [List.foldl_cons, ih]
          dsimp only
          rw [paintedElement_plain _ _ _ _ _ hcl hsh hcf]
          simp [elemT, List.count_append, List.count_cons,
            List.count_eq_zero.mpr (start_notin_addPaint "path" paint
              (Resources.ofPaint paint)),
            List.count_eq_zero.mpr
              (start_notin_transformAttr "path" mc.fMatrix),
            List.count_eq_zero.mpr (start_notin_addPathAttributes "path"
              ⟨[PathVerb.move pr.1, PathVerb.line pr.2], .winding, none⟩)]
          omega
    show List.count (Event.start "path")
        ((linesPairs pts).foldl _ ([], b)).1 = pts.length / 2
    rw [hfold (linesPairs pts) ([], b)]
    simp [linesPairs_length]

/-- Witness for C9: the in-bounds description applied at `count = 4` and the
emitted-pairs count at four concrete points with a plain paint. -/
theorem svgpoints_lines_bounds_witness :
    (linesLoopBound 4 = 3 ∧ ¬linesOutOfBounds 4) ∧
    List.count (Event.start "path")
      (drawPoints mcOpen .lines [⟨0, 0⟩, ⟨1, 0⟩, ⟨2, 0⟩, ⟨3, 0⟩] paintW
        ResourceBucket.init).1 = 2 :=
  ⟨svgpoints_lines_bounds.2.2.1 4 (by omega) (by norm_num),
   svgpoints_lines_bounds.2.2.2.2 mcOpen paintW ResourceBucket.init
     [⟨0, 0⟩, ⟨1, 0⟩, ⟨2, 0⟩, ⟨3, 0⟩] rfl rfl rfl⟩

/-! ## Literal-color paint server fallback (C10) -/

/-- The shader situations in which resolution produces no paint-server
definition: no shader, a gradient of non-linear type, a non-image
non-gradient shader, or an image shader whose encoding fails. -/
def shaderBenign (paint : SkPaint) : Prop :=
  match paint.shader with
  | none => True
  | some sh =>
      match sh.kind with
      | .linearGradient _ => False
      | .otherGradient => True
      | .image info => info.image.encodeToData = none
      | .other => True

theorem addClipResources_fPaintServer (mc : MxCp) (res : Resources)
    (b : ResourceBucket) :
    (addClipResources mc res b).1.fPaintServer = res.fPaintServer := by
  unfold addClipResources
  rfl

theorem addColorFilterResources_fPaintServer (c : SkColor) (res : Resources)
    (b : ResourceBucket) :
    (addColorFilterResources c res b).1.fPaintServer = res.fPaintServer := by
  unfold addColorFilterResources
  rfl

theorem addShaderResources_benign_fPaintServer (shader : SkShader)
    (res : Resources) (b : ResourceBucket)
    (h : match shader.kind with
         | .linearGradient _ => False
         | .image info => info.image.encodeToData = none
         | _ => True) :
    (addShaderResources shader res b).1.fPaintServer = res.fPaintServer := by
  unfold addShaderResources
  rcases shader with ⟨kind, lm⟩
  cases kind with
  | linearGradient info => exact absurd h (by simp)
  | otherGradient => rfl
  | image info =>
      simp only at h
      dsimp only
      rw [(svgimage_encode_failure.2.2 info res b h :
        addImageShaderResources info res b = (res, [], b))]
  | other => rfl

/-- C10: whenever shader resolution produces no paint-server definition (no
shader, non-linear gradient, unrecognized shader kind, or an image shader
whose encode fails), the resolved paint server stays the literal
`"rgb(r,g,b)"` string the `Resources` bundle was initialized with, and
`addPaint` emits exactly that string as the `fill` / `stroke` value of every
drawn side. -/
theorem svgpaint_literal_color (mc : MxCp) (paint : SkPaint)
    (b : ResourceBucket) (hsh : shaderBenign paint) :
    (addResources mc paint b).1.fPaintServer = svg_color paint.color ∧
    ((paint.style = .fill ∨ paint.style = .strokeAndFill) →
       Event.attrS "fill" (svg_color paint.color) ∈
         addPaint paint (addResources mc paint b).1) ∧
    ((paint.style = .stroke ∨ paint.style = .strokeAndFill) →
       Event.attrS "stroke" (svg_color paint.color) ∈
         addPaint paint (addResources mc paint b).1) := by
  have hps : (addResources mc paint b).1.fPaintServer =
      svg_color paint.color := by
    unfold addResources
    have hdefs : (addResourcesDefs mc paint b).1.fPaintServer =
        svg_color paint.color := by
      unfold addResourcesDefs
      dsimp only
      split
      · cases hsh2 : paint.shader with
        | none =>
            dsimp only
            split
            · rw [addClipResources_fPaintServer]
              rfl
            · rfl
        | some shader =>
            dsimp only
            have hb : (match shader.kind with
                | .linearGradient _ => False
                | .image info => info.image.encodeToData = none
                | _ => True) := by
              unfold shaderBenign at hsh
              rw [hsh2] at hsh
              dsimp only at hsh
              cases hk : shader.kind <;> simp_all
            rw [addShaderResources_benign_fPaintServer shader _ _ hb]
            split
            · rw [addClipResources_fPaintServer]
              rfl
            · rfl
      · rfl
    unfold addResourcesCF
    cases paint.colorFilter with
    | none => exact hdefs
    | some cf =>
        dsimp only
        cases cf.asColorMode with
        | none => exact hdefs
        | some cm =>
            rcases cm with ⟨color, mode⟩
            dsimp only
            split
            · rw [addColorFilterResources_fPaintServer]
              exact hdefs
            · exact hdefs
  refine ⟨hps, ?_, ?_⟩
  · intro hstyle
    unfold addPaint
    dsimp only
    rw [if_pos hstyle, hps]
    simp
  · intro hstyle
    unfold addPaint
    dsimp only
    rw [hps]
    rcases hstyle with hst | hst <;>
      simp [hst]

/-- Witness for C10 at a paint with a non-linear (radial/sweep) gradient
shader. -/
def paintOtherGrad : SkPaint :=
  { paintW with
      style := .strokeAndFill
      shader := some ⟨.otherGradient, SkMatrix.identity⟩ }

theorem svgpaint_literal_color_witness :
    (addResources mcOpen paintOtherGrad ResourceBucket.init).1.fPaintServer =
      svg_color paintOtherGrad.color ∧
    Event.attrS "fill" (svg_color paintOtherGrad.color) ∈
      addPaint paintOtherGrad
        (addResources mcOpen paintOtherGrad ResourceBucket.init).1 ∧
    Event.attrS "stroke" (svg_color paintOtherGrad.color) ∈
      addPaint paintOtherGrad
        (addResources mcOpen paintOtherGrad ResourceBucket.init).1 :=
  ⟨(svgpaint_literal_color mcOpen paintOtherGrad ResourceBucket.init
      trivial).1,
   (svgpaint_literal_color mcOpen paintOtherGrad ResourceBucket.init
      trivial).2.1 (Or.inr rfl),
   (svgpaint_literal_color mcOpen paintOtherGrad ResourceBucket.init
      trivial).2.2 (Or.inr rfl)⟩
